import Mathlib

/-!
# Qlance: an on-ledger job marketplace

A shallow embedding of `src/contracts/Qlance.h` and the properties of its job
lifecycle.

Conventions of the embedding.

* `unsigned long long`, `unsigned int` and `unsigned char` values are natural
  numbers; the two increments of the contract (`jobCounter++`,
  `totalJobsCompleted++`) are taken modulo `2 ^ 64`, as the C++ type does.
* `JobStatus` is an enumeration over `unsigned char`: a status is the byte
  itself, and `OPEN` .. `REJECTED` are the five named bytes.
* `Job jobs[1000]` is a map from the index to the record stored there.  Every
  read is guarded by `jobId < jobCounter` and the one write at `jobCounter`,
  in `PostJob`, by `jobCounter < 1000`, so in a state with `jobCounter ≤ 1000`
  every index used is a cell of the array.  The map is total in the index: in
  a state with `jobCounter > 1000`, which the guard of `PostJob` keeps any
  call sequence from the empty state away from, the C++ code would index past
  the array, and the embedding reads the map there.
* `qpi.invocator()` is the first argument of every procedure.
* A procedure returns the new state together with the value it leaves in its
  output record; every procedure assigns its single output field on every
  path.
-/

namespace QPI

/-- The type `id` of `qpi.h`: a 256-bit identity, represented by its value. -/
abbrev id := Nat

end QPI

namespace Qlance

/-- Modelled from the spec: `NULL_ID` of `qpi.h` (not part of the sources at
hand), the sentinel identity that stands for "no one". -/
def NULL_ID : QPI.id := 0

/-- The wrap-around point of `unsigned long long`. -/
def UINT64_MOD : Nat := 2 ^ 64

/-- `enum JobStatus : unsigned char`. -/
abbrev JobStatus := Nat

def OPEN : JobStatus := 0
def CLAIMED : JobStatus := 1
def SUBMITTED : JobStatus := 2
def APPROVED : JobStatus := 3
def REJECTED : JobStatus := 4

/-- `struct Job`. -/
structure Job where
  jobId : Nat
  priceInQubic : Nat
  clientAddress : QPI.id
  workerAddress : QPI.id
  status : JobStatus
  createdAt : Nat
deriving DecidableEq

/-- The contract state: the three data members of `struct Qlance`.  `jobs k`
is the cell `jobs[k]`. -/
structure State where
  jobCounter : Nat
  jobs : Nat → Job
  totalJobsCompleted : Nat

/-- `GetJobsCount`. -/
def GetJobsCount (state : State) : Nat :=
  state.jobCounter

/-- `struct GetJob_output`. -/
structure GetJob_output where
  jobId : Nat
  price : Nat
  status : Nat
deriving DecidableEq

/-- Modelled from the spec: the output record as the host hands it to a
function, every field zero (the call machinery of `qpi.h` is not part of the
sources at hand; the spec calls the out-of-range answer the all-zero
sentinel). -/
def GetJob_output.zero : GetJob_output :=
  { jobId := 0, price := 0, status := 0 }

/-- `GetJob`.  The function body receives its output record by reference; the
out-of-range branch assigns `output.jobId` only. -/
def GetJob (state : State) (jobId : Nat) (output : GetJob_output) : GetJob_output :=
  if jobId ≥ state.jobCounter then
    { output with jobId := 0 }
  else
    let job := state.jobs jobId
    { jobId := job.jobId, price := job.priceInQubic, status := job.status }

/-- `PostJob`: returns the new state and `output.jobId`. -/
def PostJob (invocator : QPI.id) (state : State) (priceInQubic : Nat) : State × Nat :=
  if state.jobCounter ≥ 1000 then
    (state, 0)
  else
    let jobId := state.jobCounter
    let job : Job :=
      { jobId := jobId
        priceInQubic := priceInQubic
        clientAddress := invocator
        workerAddress := NULL_ID
        status := OPEN
        createdAt := 0 }
    ({ state with
        jobs := Function.update state.jobs jobId job
        jobCounter := (state.jobCounter + 1) % UINT64_MOD }, jobId)

/-- `ClaimJob`: returns the new state and `output.status`. -/
def ClaimJob (invocator : QPI.id) (state : State) (jobId : Nat) : State × Nat :=
  if jobId ≥ state.jobCounter then
    (state, 1)
  else
    let job := state.jobs jobId
    if job.status ≠ OPEN then
      (state, 1)
    else
      let job := { job with status := CLAIMED, workerAddress := invocator }
      ({ state with jobs := Function.update state.jobs jobId job }, 0)

/-- `SubmitWork`: returns the new state and `output.status`. -/
def SubmitWork (invocator : QPI.id) (state : State) (jobId : Nat) : State × Nat :=
  if jobId ≥ state.jobCounter then
    (state, 1)
  else
    let job := state.jobs jobId
    if job.status ≠ CLAIMED ∨ invocator ≠ job.workerAddress then
      (state, 1)
    else
      let job := { job with status := SUBMITTED }
      ({ state with jobs := Function.update state.jobs jobId job }, 0)

/-- `ApproveWork`: returns the new state and `output.status`. -/
def ApproveWork (invocator : QPI.id) (state : State) (jobId : Nat) : State × Nat :=
  if jobId ≥ state.jobCounter then
    (state, 1)
  else
    let job := state.jobs jobId
    if job.status ≠ SUBMITTED ∨ invocator ≠ job.clientAddress then
      (state, 1)
    else
      let job := { job with status := APPROVED }
      ({ state with
          jobs := Function.update state.jobs jobId job
          totalJobsCompleted := (state.totalJobsCompleted + 1) % UINT64_MOD }, 0)

/-- `RejectWork`: returns the new state and `output.status`. -/
def RejectWork (invocator : QPI.id) (state : State) (jobId : Nat) : State × Nat :=
  if jobId ≥ state.jobCounter then
    (state, 1)
  else
    let job := state.jobs jobId
    if job.status ≠ SUBMITTED ∨ invocator ≠ job.clientAddress then
      (state, 1)
    else
      let job := { job with status := REJECTED }
      ({ state with jobs := Function.update state.jobs jobId job }, 0)

/-- A call of one of the five registered procedures, with its invocator and
its input. -/
inductive Call where
  | postJob (invocator : QPI.id) (priceInQubic : Nat)
  | claimJob (invocator : QPI.id) (jobId : Nat)
  | submitWork (invocator : QPI.id) (jobId : Nat)
  | approveWork (invocator : QPI.id) (jobId : Nat)
  | rejectWork (invocator : QPI.id) (jobId : Nat)
deriving DecidableEq

/-- Dispatch of one call: the new state and the output value. -/
def step (state : State) : Call → State × Nat
  | .postJob c p => PostJob c state p
  | .claimJob c j => ClaimJob c state j
  | .submitWork c j => SubmitWork c state j
  | .approveWork c j => ApproveWork c state j
  | .rejectWork c j => RejectWork c state j

/-- The state after a sequence of calls, executed in order. -/
def exec (state : State) : List Call → State
  | [] => state
  | c :: cs => exec (step state c).1 cs

/-- The calls of a sequence, each paired with the output it returned. -/
def trace (state : State) : List Call → List (Call × Nat)
  | [] => []
  | c :: cs => (c, (step state c).2) :: trace (step state c).1 cs

/-- The prices of the `PostJob` calls of a sequence, in call order. -/
def postPrices : List Call → List Nat
  | [] => []
  | .postJob _ p :: cs => p :: postPrices cs
  | _ :: cs => postPrices cs

/-- Whether a call is one of the four lifecycle procedures addressed to job `j`. -/
def Call.addresses (j : Nat) : Call → Bool
  | .postJob _ _ => false
  | .claimJob _ k => k == j
  | .submitWork _ k => k == j
  | .approveWork _ k => k == j
  | .rejectWork _ k => k == j

/-- A state with no job posted and every cell of the array zero, as the
ledger creates the contract. -/
def emptyState : State :=
  { jobCounter := 0
    jobs := fun _ =>
      { jobId := 0, priceInQubic := 0, clientAddress := 0, workerAddress := 0,
        status := 0, createdAt := 0 }
    totalJobsCompleted := 0 }

/-- A state holding one job, posted by identity 7 for price 100, in the given
status, with the given worker and completed-jobs count. -/
def oneJob (status : JobStatus) (worker : QPI.id) (completed : Nat) : State :=
  { jobCounter := 1
    jobs := fun _ =>
      { jobId := 0, priceInQubic := 100, clientAddress := 7, workerAddress := worker,
        status := status, createdAt := 0 }
    totalJobsCompleted := completed }

/-- The registry against the history of posted prices `ps`: the counter is
the number of posts, capped at 1000, and record `j` carries its own index and
the price of post number `j`. -/
def Recorded (s : State) (ps : List Nat) : Prop :=
  s.jobCounter = min ps.length 1000 ∧
  ∀ j, j < s.jobCounter →
    (s.jobs j).jobId = j ∧ ps[j]? = some (s.jobs j).priceInQubic

/-- The index of the cell of `jobs` that a procedure call reads or writes in
the given state: `PostJob` writes `jobs[jobCounter]` once past its capacity
guard, and each lifecycle procedure reads (and on success writes back)
`jobs[input.jobId]` once past its range guard.  `none` when the call returns
before touching the array. -/
def indexed (s : State) : Call → Option Nat
  | .postJob _ _ => if s.jobCounter ≥ 1000 then none else some s.jobCounter
  | .claimJob _ j => if j ≥ s.jobCounter then none else some j
  | .submitWork _ j => if j ≥ s.jobCounter then none else some j
  | .approveWork _ j => if j ≥ s.jobCounter then none else some j
  | .rejectWork _ j => if j ≥ s.jobCounter then none else some j

/-- The index of the cell of `jobs` that `GetJob` reads: `jobs[input.jobId]`
once past its range guard. -/
def GetJob_indexed (s : State) (jobId : Nat) : Option Nat :=
  if jobId ≥ s.jobCounter then none else some jobId

/-- The four transitions of the job lifecycle, on status bytes. -/
def Transition (a b : JobStatus) : Prop :=
  (a = OPEN ∧ b = CLAIMED) ∨ (a = CLAIMED ∧ b = SUBMITTED) ∨
  (a = SUBMITTED ∧ b = APPROVED) ∨ (a = SUBMITTED ∧ b = REJECTED)

/-- The number of indices `j < jobCounter` whose record is Approved. -/
def approvedCount (s : State) : Nat :=
  ((Finset.range s.jobCounter).filter (fun j => (s.jobs j).status = APPROVED)).card

/-- The job ids of the `ApproveWork` calls of a trace that returned 0, in
call order. -/
def approvedIds (tr : List (Call × Nat)) : List Nat :=
  tr.filterMap (fun e =>
    match e with
    | (Call.approveWork _ j, out) => if out = 0 then some j else none
    | _ => none)

/-- The completed-jobs aggregate counts the Approved records, in a registry
within capacity. -/
def Counted (s : State) : Prop :=
  s.jobCounter ≤ 1000 ∧ s.totalJobsCompleted = approvedCount s

/-- Every record below the counter has `createdAt = 0`, one of the five
statuses, and no worker while it is Open. -/
def Sound (s : State) : Prop :=
  ∀ j, j < s.jobCounter →
    (s.jobs j).createdAt = 0 ∧
    ((s.jobs j).status = OPEN ∨ (s.jobs j).status = CLAIMED ∨
      (s.jobs j).status = SUBMITTED ∨ (s.jobs j).status = APPROVED ∨
      (s.jobs j).status = REJECTED) ∧
    ((s.jobs j).status = OPEN → (s.jobs j).workerAddress = NULL_ID)

/-- `PostJob` with `jobCounter++` taken in the natural numbers, without the
64-bit wrap-around: the reading of the increment as "the counter increases by
exactly 1". -/
def PostJob_unbounded (invocator : QPI.id) (state : State) (priceInQubic : Nat) :
    State × Nat :=
  if state.jobCounter ≥ 1000 then
    (state, 0)
  else
    let jobId := state.jobCounter
    let job : Job :=
      { jobId := jobId
        priceInQubic := priceInQubic
        clientAddress := invocator
        workerAddress := NULL_ID
        status := OPEN
        createdAt := 0 }
    ({ state with
        jobs := Function.update state.jobs jobId job
        jobCounter := state.jobCounter + 1 }, jobId)

/-- `ApproveWork` with `totalJobsCompleted++` taken in the natural numbers,
without the 64-bit wrap-around: the reading of the increment as
"`totalJobsCompleted += 1`". -/
def ApproveWork_unbounded (invocator : QPI.id) (state : State) (jobId : Nat) :
    State × Nat :=
  if jobId ≥ state.jobCounter then
    (state, 1)
  else
    let job := state.jobs jobId
    if job.status ≠ SUBMITTED ∨ invocator ≠ job.clientAddress then
      (state, 1)
    else
      let job := { job with status := APPROVED }
      ({ state with
          jobs := Function.update state.jobs jobId job
          totalJobsCompleted := state.totalJobsCompleted + 1 }, 0)

/-- Dispatch of one call with the two increments unbounded. -/
def step_unbounded (state : State) : Call → State × Nat
  | .postJob c p => PostJob_unbounded c state p
  | .claimJob c j => ClaimJob c state j
  | .submitWork c j => SubmitWork c state j
  | .approveWork c j => ApproveWork_unbounded c state j
  | .rejectWork c j => RejectWork c state j

/-- The state after a sequence of calls with the two increments unbounded. -/
def exec_unbounded (state : State) : List Call → State
  | [] => state
  | c :: cs => exec_unbounded (step_unbounded state c).1 cs

/-- The calls of a sequence with the outputs they return when the two
increments are unbounded. -/
def trace_unbounded (state : State) : List Call → List (Call × Nat)
  | [] => []
  | c :: cs =>
    (c, (step_unbounded state c).2) :: trace_unbounded (step_unbounded state c).1 cs

/-- The calls of the end-to-end scenario: client `C` posts a job of price 100,
worker `A` claims it, worker `B` tries to submit, `A` submits, `C` approves
and then tries to reject. -/
def scenario (C A B : QPI.id) : List Call :=
  [Call.postJob C 100, Call.claimJob A 0, Call.submitWork B 0, Call.submitWork A 0,
   Call.approveWork C 0, Call.rejectWork C 0]

/-- One identity `X` posting a job in state `s` and taking it through the
whole lifecycle alone. -/
def soloLifecycle (s : State) (X : QPI.id) (price : Nat) : List Call :=
  [Call.postJob X price, Call.claimJob X s.jobCounter, Call.submitWork X s.jobCounter,
   Call.approveWork X s.jobCounter]

/-- Job `j` exists and has status `st` after the first `n` calls of `cs`,
with `n` strictly before the end of `cs`. -/
def StatusAt (s : State) (cs : List Call) (j n : Nat) (st : JobStatus) : Prop :=
  n < cs.length ∧ j < (exec s (cs.take n)).jobCounter ∧
    ((exec s (cs.take n)).jobs j).status = st

instance (s : State) (cs : List Call) (j n : Nat) (st : JobStatus) :
    Decidable (StatusAt s cs j n st) := by
  unfold StatusAt
  infer_instance

/-! ## The two outcomes of each lifecycle procedure -/

theorem ClaimJob_ok (c : QPI.id) (s : State) (j : Nat)
    (hj : j < s.jobCounter) (hs : (s.jobs j).status = OPEN) :
    ClaimJob c s j =
      ({ s with jobs := (Function.update s.jobs j
          ({ s.jobs j with status := CLAIMED, workerAddress := c } : Job)) }, 0) := by
  have hn : ¬ s.jobCounter ≤ j := by omega
  simp [ClaimJob, hn, hs]

theorem ClaimJob_fail (c : QPI.id) (s : State) (j : Nat)
    (h : ¬ (j < s.jobCounter ∧ (s.jobs j).status = OPEN)) :
    ClaimJob c s j = (s, 1) := by
  unfold ClaimJob
  by_cases hj : s.jobCounter ≤ j
  · simp [hj]
  · have hs : ¬ (s.jobs j).status = OPEN := fun hs => h ⟨by omega, hs⟩
    simp [hj, hs]

theorem SubmitWork_ok (c : QPI.id) (s : State) (j : Nat)
    (hj : j < s.jobCounter) (hs : (s.jobs j).status = CLAIMED)
    (hc : c = (s.jobs j).workerAddress) :
    SubmitWork c s j =
      ({ s with jobs := (Function.update s.jobs j
          ({ s.jobs j with status := SUBMITTED } : Job)) }, 0) := by
  have hn : ¬ s.jobCounter ≤ j := by omega
  simp [SubmitWork, hn, hs, ← hc]

theorem SubmitWork_fail (c : QPI.id) (s : State) (j : Nat)
    (h : ¬ (j < s.jobCounter ∧ (s.jobs j).status = CLAIMED ∧
          c = (s.jobs j).workerAddress)) :
    SubmitWork c s j = (s, 1) := by
  unfold SubmitWork
  by_cases hj : s.jobCounter ≤ j
  · simp [hj]
  · have hs : (s.jobs j).status = CLAIMED → ¬ c = (s.jobs j).workerAddress :=
      fun hs hc => h ⟨by omega, hs, hc⟩
    simp only [ge_iff_le, hj, if_false]
    rw [if_pos]
    by_cases h2 : (s.jobs j).status = CLAIMED
    · exact Or.inr (hs h2)
    · exact Or.inl h2

theorem ApproveWork_ok (c : QPI.id) (s : State) (j : Nat)
    (hj : j < s.jobCounter) (hs : (s.jobs j).status = SUBMITTED)
    (hc : c = (s.jobs j).clientAddress) :
    ApproveWork c s j =
      ({ s with
          jobs := Function.update s.jobs j { s.jobs j with status := APPROVED }
          totalJobsCompleted := (s.totalJobsCompleted + 1) % UINT64_MOD }, 0) := by
  have hn : ¬ s.jobCounter ≤ j := by omega
  simp [ApproveWork, hn, hs, ← hc]

theorem ApproveWork_fail (c : QPI.id) (s : State) (j : Nat)
    (h : ¬ (j < s.jobCounter ∧ (s.jobs j).status = SUBMITTED ∧
          c = (s.jobs j).clientAddress)) :
    ApproveWork c s j = (s, 1) := by
  unfold ApproveWork
  by_cases hj : s.jobCounter ≤ j
  · simp [hj]
  · have hs : (s.jobs j).status = SUBMITTED → ¬ c = (s.jobs j).clientAddress :=
      fun hs hc => h ⟨by omega, hs, hc⟩
    simp only [ge_iff_le, hj, if_false]
    rw [if_pos]
    by_cases h2 : (s.jobs j).status = SUBMITTED
    · exact Or.inr (hs h2)
    · exact Or.inl h2

theorem RejectWork_ok (c : QPI.id) (s : State) (j : Nat)
    (hj : j < s.jobCounter) (hs : (s.jobs j).status = SUBMITTED)
    (hc : c = (s.jobs j).clientAddress) :
    RejectWork c s j =
      ({ s with jobs := (Function.update s.jobs j
          ({ s.jobs j with status := REJECTED } : Job)) }, 0) := by
  have hn : ¬ s.jobCounter ≤ j := by omega
  simp [RejectWork, hn, hs, ← hc]

theorem RejectWork_fail (c : QPI.id) (s : State) (j : Nat)
    (h : ¬ (j < s.jobCounter ∧ (s.jobs j).status = SUBMITTED ∧
          c = (s.jobs j).clientAddress)) :
    RejectWork c s j = (s, 1) := by
  unfold RejectWork
  by_cases hj : s.jobCounter ≤ j
  · simp [hj]
  · have hs : (s.jobs j).status = SUBMITTED → ¬ c = (s.jobs j).clientAddress :=
      fun hs hc => h ⟨by omega, hs, hc⟩
    simp only [ge_iff_le, hj, if_false]
    rw [if_pos]
    by_cases h2 : (s.jobs j).status = SUBMITTED
    · exact Or.inr (hs h2)
    · exact Or.inl h2

/-! ## ClaimJob -/

/-- C1: `ClaimJob` returns 0 exactly when `jobId < jobCounter` and the stored
record is Open, and 1 otherwise; on 0 the record becomes Claimed with the
caller as worker, its other fields, every other record, `jobCounter` and
`totalJobsCompleted` are unchanged. -/
theorem ClaimJob_spec (caller : QPI.id) (s : State) (jobId : Nat) :
    ((ClaimJob caller s jobId).2 = 0 ↔
        (jobId < s.jobCounter ∧ (s.jobs jobId).status = OPEN)) ∧
    (¬ (jobId < s.jobCounter ∧ (s.jobs jobId).status = OPEN) →
        (ClaimJob caller s jobId).2 = 1) ∧
    ((ClaimJob caller s jobId).2 = 0 →
        ((ClaimJob caller s jobId).1.jobs jobId).status = CLAIMED ∧
        ((ClaimJob caller s jobId).1.jobs jobId).workerAddress = caller ∧
        ((ClaimJob caller s jobId).1.jobs jobId).jobId = (s.jobs jobId).jobId ∧
        ((ClaimJob caller s jobId).1.jobs jobId).priceInQubic = (s.jobs jobId).priceInQubic ∧
        ((ClaimJob caller s jobId).1.jobs jobId).clientAddress = (s.jobs jobId).clientAddress ∧
        ((ClaimJob caller s jobId).1.jobs jobId).createdAt = (s.jobs jobId).createdAt ∧
        (∀ k, k ≠ jobId → (ClaimJob caller s jobId).1.jobs k = s.jobs k) ∧
        (ClaimJob caller s jobId).1.jobCounter = s.jobCounter ∧
        (ClaimJob caller s jobId).1.totalJobsCompleted = s.totalJobsCompleted) := by
  by_cases h : jobId < s.jobCounter ∧ (s.jobs jobId).status = OPEN
  · rw [ClaimJob_ok caller s jobId h.1 h.2]
    refine ⟨by simp [h], fun hn => absurd h hn, fun _ => ?_⟩
    refine ⟨by simp, by simp, by simp, by simp, by simp, by simp, ?_, rfl, rfl⟩
    intro k hk
    simp [Function.update, hk]
  · rw [ClaimJob_fail caller s jobId h]
    simp [h]

/-- `ClaimJob` succeeds on an Open job: identity 8 claims job 0. -/
theorem ClaimJob_spec_witness :
    (ClaimJob 8 (oneJob OPEN NULL_ID 0) 0).2 = 0 ∧
    ((ClaimJob 8 (oneJob OPEN NULL_ID 0) 0).1.jobs 0).status = CLAIMED ∧
    ((ClaimJob 8 (oneJob OPEN NULL_ID 0) 0).1.jobs 0).workerAddress = 8 :=
  have h := ClaimJob_spec 8 (oneJob OPEN NULL_ID 0) 0
  have h0 : (ClaimJob 8 (oneJob OPEN NULL_ID 0) 0).2 = 0 := h.1.2 ⟨by decide, by decide⟩
  ⟨h0, (h.2.2 h0).1, (h.2.2 h0).2.1⟩

/-! ## SubmitWork -/

/-- C2: `SubmitWork` returns 0 exactly when `jobId < jobCounter`, the stored
record is Claimed and the caller is its worker, and 1 otherwise; on 0 the
record becomes Submitted and nothing else changes. -/
theorem SubmitWork_spec (caller : QPI.id) (s : State) (jobId : Nat) :
    ((SubmitWork caller s jobId).2 = 0 ↔
        (jobId < s.jobCounter ∧ (s.jobs jobId).status = CLAIMED ∧
          caller = (s.jobs jobId).workerAddress)) ∧
    (¬ (jobId < s.jobCounter ∧ (s.jobs jobId).status = CLAIMED ∧
          caller = (s.jobs jobId).workerAddress) →
        (SubmitWork caller s jobId).2 = 1) ∧
    ((SubmitWork caller s jobId).2 = 0 →
        (SubmitWork caller s jobId).1.jobs jobId =
          { s.jobs jobId with status := SUBMITTED } ∧
        (∀ k, k ≠ jobId → (SubmitWork caller s jobId).1.jobs k = s.jobs k) ∧
        (SubmitWork caller s jobId).1.jobCounter = s.jobCounter ∧
        (SubmitWork caller s jobId).1.totalJobsCompleted = s.totalJobsCompleted) := by
  by_cases h : jobId < s.jobCounter ∧ (s.jobs jobId).status = CLAIMED ∧
      caller = (s.jobs jobId).workerAddress
  · rw [SubmitWork_ok caller s jobId h.1 h.2.1 h.2.2]
    refine ⟨⟨fun _ => h, fun _ => rfl⟩, fun hn => absurd h hn, fun _ => ?_⟩
    refine ⟨by simp, ?_, rfl, rfl⟩
    intro k hk
    simp [Function.update, hk]
  · rw [SubmitWork_fail caller s jobId h]
    exact ⟨⟨fun h0 => absurd h0 one_ne_zero, fun hc => absurd hc h⟩, fun _ => rfl,
      fun h0 => absurd h0 one_ne_zero⟩

/-- `SubmitWork` succeeds for the worker of a Claimed job. -/
theorem SubmitWork_spec_witness :
    (SubmitWork 8 (oneJob CLAIMED 8 0) 0).2 = 0 ∧
    ((SubmitWork 8 (oneJob CLAIMED 8 0) 0).1.jobs 0).status = SUBMITTED :=
  have h := SubmitWork_spec 8 (oneJob CLAIMED 8 0) 0
  have h0 : (SubmitWork 8 (oneJob CLAIMED 8 0) 0).2 = 0 :=
    h.1.2 ⟨by decide, by decide, by decide⟩
  ⟨h0, by rw [(h.2.2 h0).1]⟩

/-! ## RejectWork -/

/-- C4: `RejectWork` returns 0 exactly when `jobId < jobCounter`, the stored
record is Submitted and the caller is its client, and 1 otherwise; on 0 the
record becomes Rejected and nothing else changes; `totalJobsCompleted` is the
same after every call, whatever it returns. -/
theorem RejectWork_spec (caller : QPI.id) (s : State) (jobId : Nat) :
    ((RejectWork caller s jobId).2 = 0 ↔
        (jobId < s.jobCounter ∧ (s.jobs jobId).status = SUBMITTED ∧
          caller = (s.jobs jobId).clientAddress)) ∧
    (¬ (jobId < s.jobCounter ∧ (s.jobs jobId).status = SUBMITTED ∧
          caller = (s.jobs jobId).clientAddress) →
        (RejectWork caller s jobId).2 = 1) ∧
    ((RejectWork caller s jobId).2 = 0 →
        (RejectWork caller s jobId).1.jobs jobId =
          { s.jobs jobId with status := REJECTED } ∧
        (∀ k, k ≠ jobId → (RejectWork caller s jobId).1.jobs k = s.jobs k) ∧
        (RejectWork caller s jobId).1.jobCounter = s.jobCounter) ∧
    (RejectWork caller s jobId).1.totalJobsCompleted = s.totalJobsCompleted := by
  by_cases h : jobId < s.jobCounter ∧ (s.jobs jobId).status = SUBMITTED ∧
      caller = (s.jobs jobId).clientAddress
  · rw [RejectWork_ok caller s jobId h.1 h.2.1 h.2.2]
    refine ⟨⟨fun _ => h, fun _ => rfl⟩, fun hn => absurd h hn, fun _ => ?_, rfl⟩
    refine ⟨by simp, ?_, rfl⟩
    intro k hk
    simp [Function.update, hk]
  · rw [RejectWork_fail caller s jobId h]
    exact ⟨⟨fun h0 => absurd h0 one_ne_zero, fun hc => absurd hc h⟩, fun _ => rfl,
      fun h0 => absurd h0 one_ne_zero, rfl⟩

/-- `RejectWork` succeeds for the client of a Submitted job and leaves the
completed-jobs count alone. -/
theorem RejectWork_spec_witness :
    (RejectWork 7 (oneJob SUBMITTED 8 5) 0).2 = 0 ∧
    ((RejectWork 7 (oneJob SUBMITTED 8 5) 0).1.jobs 0).status = REJECTED ∧
    (RejectWork 7 (oneJob SUBMITTED 8 5) 0).1.totalJobsCompleted = 5 :=
  have h := RejectWork_spec 7 (oneJob SUBMITTED 8 5) 0
  have h0 : (RejectWork 7 (oneJob SUBMITTED 8 5) 0).2 = 0 :=
    h.1.2 ⟨by decide, by decide, by decide⟩
  ⟨h0, by rw [(h.2.2.1 h0).1], h.2.2.2⟩

/-! ## Atomicity on failure -/

/-- C5: whenever `ClaimJob`, `SubmitWork`, `ApproveWork` or `RejectWork`
returns 1, the state after the call is the state before it. -/
theorem failure_leaves_state (caller : QPI.id) (s : State) (jobId : Nat) :
    ((ClaimJob caller s jobId).2 = 1 → (ClaimJob caller s jobId).1 = s) ∧
    ((SubmitWork caller s jobId).2 = 1 → (SubmitWork caller s jobId).1 = s) ∧
    ((ApproveWork caller s jobId).2 = 1 → (ApproveWork caller s jobId).1 = s) ∧
    ((RejectWork caller s jobId).2 = 1 → (RejectWork caller s jobId).1 = s) := by
  refine ⟨?_, ?_, ?_, ?_⟩
  · by_cases h : jobId < s.jobCounter ∧ (s.jobs jobId).status = OPEN
    · rw [ClaimJob_ok caller s jobId h.1 h.2]
      intro h1; exact absurd h1 zero_ne_one
    · rw [ClaimJob_fail caller s jobId h]
      intro _; rfl
  · by_cases h : jobId < s.jobCounter ∧ (s.jobs jobId).status = CLAIMED ∧
        caller = (s.jobs jobId).workerAddress
    · rw [SubmitWork_ok caller s jobId h.1 h.2.1 h.2.2]
      intro h1; exact absurd h1 zero_ne_one
    · rw [SubmitWork_fail caller s jobId h]
      intro _; rfl
  · by_cases h : jobId < s.jobCounter ∧ (s.jobs jobId).status = SUBMITTED ∧
        caller = (s.jobs jobId).clientAddress
    · rw [ApproveWork_ok caller s jobId h.1 h.2.1 h.2.2]
      intro h1; exact absurd h1 zero_ne_one
    · rw [ApproveWork_fail caller s jobId h]
      intro _; rfl
  · by_cases h : jobId < s.jobCounter ∧ (s.jobs jobId).status = SUBMITTED ∧
        caller = (s.jobs jobId).clientAddress
    · rw [RejectWork_ok caller s jobId h.1 h.2.1 h.2.2]
      intro h1; exact absurd h1 zero_ne_one
    · rw [RejectWork_fail caller s jobId h]
      intro _; rfl

/-- Each of the four procedures fails on a job in the wrong status (here an
Approved one) and hands back the state it was given. -/
theorem failure_leaves_state_witness :
    (ClaimJob 7 (oneJob APPROVED 8 1) 0).2 = 1 ∧
    (ClaimJob 7 (oneJob APPROVED 8 1) 0).1 = oneJob APPROVED 8 1 ∧
    (RejectWork 7 (oneJob APPROVED 8 1) 0).2 = 1 ∧
    (RejectWork 7 (oneJob APPROVED 8 1) 0).1 = oneJob APPROVED 8 1 :=
  have h := failure_leaves_state 7 (oneJob APPROVED 8 1) 0
  have hc : (ClaimJob 7 (oneJob APPROVED 8 1) 0).2 = 1 := by decide
  have hr : (RejectWork 7 (oneJob APPROVED 8 1) 0).2 = 1 := by decide
  ⟨hc, h.1 hc, hr, h.2.2.2 hr⟩

/-! ## PostJob -/

theorem PostJob_ok (c : QPI.id) (s : State) (p : Nat) (h : s.jobCounter < 1000) :
    PostJob c s p =
      ({ s with
          jobs := Function.update s.jobs s.jobCounter
            { jobId := s.jobCounter, priceInQubic := p, clientAddress := c,
              workerAddress := NULL_ID, status := OPEN, createdAt := 0 }
          jobCounter := s.jobCounter + 1 }, s.jobCounter) := by
  have hn : ¬ 1000 ≤ s.jobCounter := by omega
  have hm : (s.jobCounter + 1) % UINT64_MOD = s.jobCounter + 1 :=
    Nat.mod_eq_of_lt (by unfold UINT64_MOD; omega)
  simp [PostJob, hn, hm]

theorem PostJob_full (c : QPI.id) (s : State) (p : Nat) (h : 1000 ≤ s.jobCounter) :
    PostJob c s p = (s, 0) := by
  simp [PostJob, h]

/-- C6: in a state with `jobCounter < 1000`, `PostJob` returns the old
`jobCounter`, increases `jobCounter` by 1 and stores at that index the record
(index, price, caller, `NULL_ID`, Open, 0); every other record and
`totalJobsCompleted` are unchanged; on an empty registry it returns 0. -/
theorem PostJob_spec (caller : QPI.id) (s : State) (price : Nat)
    (h : s.jobCounter < 1000) :
    (PostJob caller s price).2 = s.jobCounter ∧
    (PostJob caller s price).1.jobCounter = s.jobCounter + 1 ∧
    (PostJob caller s price).1.jobs s.jobCounter =
      { jobId := s.jobCounter, priceInQubic := price, clientAddress := caller,
        workerAddress := NULL_ID, status := OPEN, createdAt := 0 } ∧
    (∀ k, k ≠ s.jobCounter → (PostJob caller s price).1.jobs k = s.jobs k) ∧
    (PostJob caller s price).1.totalJobsCompleted = s.totalJobsCompleted ∧
    (s.jobCounter = 0 → (PostJob caller s price).2 = 0) := by
  rw [PostJob_ok caller s price h]
  refine ⟨rfl, rfl, by simp, ?_, rfl, fun h0 => h0⟩
  intro k hk
  simp [Function.update, hk]

/-- The first `PostJob` on the empty state returns 0 and stores job 0. -/
theorem PostJob_spec_witness :
    (PostJob 7 emptyState 100).2 = 0 ∧
    (PostJob 7 emptyState 100).1.jobCounter = 1 ∧
    (PostJob 7 emptyState 100).1.jobs 0 =
      { jobId := 0, priceInQubic := 100, clientAddress := 7,
        workerAddress := NULL_ID, status := OPEN, createdAt := 0 } :=
  have h := PostJob_spec 7 emptyState 100 (by decide)
  ⟨h.2.2.2.2.2 rfl, h.2.1, h.2.2.1⟩

/-! ## GetJob -/

/-- C8: for `jobId ≥ jobCounter`, `GetJob` assigns 0 to `output.jobId` and
nothing else, so on the zero-filled output record it answers (0, 0, 0). -/
theorem GetJob_out_of_range (s : State) (jobId : Nat) (h : jobId ≥ s.jobCounter) :
    (∀ out : GetJob_output, GetJob s jobId out = { out with jobId := 0 }) ∧
    GetJob s jobId GetJob_output.zero = { jobId := 0, price := 0, status := 0 } := by
  have hg : ∀ out : GetJob_output, GetJob s jobId out = { out with jobId := 0 } := by
    intro out
    simp [GetJob, h]
  exact ⟨hg, by rw [hg]; rfl⟩

/-- `GetJob` past the last job of a one-job registry answers (0, 0, 0). -/
theorem GetJob_out_of_range_witness :
    GetJob (oneJob CLAIMED 8 0) 1 GetJob_output.zero =
      { jobId := 0, price := 0, status := 0 } :=
  (GetJob_out_of_range (oneJob CLAIMED 8 0) 1 (by decide)).2

/-! ## Sequences of calls -/

/-- A lifecycle call (any call but `PostJob`) keeps `jobCounter` and, in every
record, the fields `jobId` and `priceInQubic`. -/
theorem lifecycle_frame (s : State) (c : Call) (hc : ∀ a p, c ≠ Call.postJob a p)
    (i : Nat) :
    (step s c).1.jobCounter = s.jobCounter ∧
    ((step s c).1.jobs i).jobId = (s.jobs i).jobId ∧
    ((step s c).1.jobs i).priceInQubic = (s.jobs i).priceInQubic := by
  cases c with
  | postJob a p => exact absurd rfl (hc a p)
  | claimJob a j =>
    simp only [step]
    by_cases h : j < s.jobCounter ∧ (s.jobs j).status = OPEN
    · rw [ClaimJob_ok a s j h.1 h.2]
      by_cases hij : i = j
      · subst hij; simp
      · simp [Function.update, hij]
    · rw [ClaimJob_fail a s j h]
      exact ⟨rfl, rfl, rfl⟩
  | submitWork a j =>
    simp only [step]
    by_cases h : j < s.jobCounter ∧ (s.jobs j).status = CLAIMED ∧
        a = (s.jobs j).workerAddress
    · rw [SubmitWork_ok a s j h.1 h.2.1 h.2.2]
      by_cases hij : i = j
      · subst hij; simp
      · simp [Function.update, hij]
    · rw [SubmitWork_fail a s j h]
      exact ⟨rfl, rfl, rfl⟩
  | approveWork a j =>
    simp only [step]
    by_cases h : j < s.jobCounter ∧ (s.jobs j).status = SUBMITTED ∧
        a = (s.jobs j).clientAddress
    · rw [ApproveWork_ok a s j h.1 h.2.1 h.2.2]
      by_cases hij : i = j
      · subst hij; simp
      · simp [Function.update, hij]
    · rw [ApproveWork_fail a s j h]
      exact ⟨rfl, rfl, rfl⟩
  | rejectWork a j =>
    simp only [step]
    by_cases h : j < s.jobCounter ∧ (s.jobs j).status = SUBMITTED ∧
        a = (s.jobs j).clientAddress
    · rw [RejectWork_ok a s j h.1 h.2.1 h.2.2]
      by_cases hij : i = j
      · subst hij; simp
      · simp [Function.update, hij]
    · rw [RejectWork_fail a s j h]
      exact ⟨rfl, rfl, rfl⟩

theorem Recorded_PostJob (s : State) (ps : List Nat) (a : QPI.id) (p : Nat)
    (h : Recorded s ps) : Recorded (PostJob a s p).1 (ps ++ [p]) := by
  obtain ⟨hc, hr⟩ := h
  by_cases hlt : s.jobCounter < 1000
  · have hlen : ps.length = s.jobCounter := by
      rw [Nat.min_def] at hc
      split_ifs at hc <;> omega
    rw [PostJob_ok a s p hlt]
    refine ⟨?_, ?_⟩
    · simp only [List.length_append, List.length_singleton, Nat.min_def]
      split_ifs <;> omega
    · intro j hj
      simp only at hj
      by_cases hjc : j = s.jobCounter
      · subst hjc
        simp [← hlen]
      · have hj' : j < s.jobCounter := by omega
        have hjl : j < ps.length := by omega
        simp only [Function.update, hjc, dite_false]
        rw [List.getElem?_append_left hjl]
        exact hr j hj'
  · have hge : 1000 ≤ s.jobCounter := by omega
    have hlen : 1000 ≤ ps.length := by
      rw [Nat.min_def] at hc
      split_ifs at hc <;> omega
    rw [PostJob_full a s p hge]
    refine ⟨?_, ?_⟩
    · simp only [List.length_append, List.length_singleton, Nat.min_def]
      rw [Nat.min_def] at hc
      split_ifs at hc ⊢ <;> omega
    · intro j hj
      simp only at hj
      have hj1 : j < 1000 := by
        rw [Nat.min_def] at hc
        split_ifs at hc <;> omega
      have hjl : j < ps.length := by omega
      rw [List.getElem?_append_left hjl]
      exact hr j hj

theorem Recorded_lifecycle (s : State) (ps : List Nat) (c : Call)
    (hc : ∀ a p, c ≠ Call.postJob a p) (h : Recorded s ps) :
    Recorded (step s c).1 ps := by
  obtain ⟨hn, hr⟩ := h
  refine ⟨by rw [(lifecycle_frame s c hc 0).1]; exact hn, ?_⟩
  intro j hj
  rw [(lifecycle_frame s c hc j).1] at hj
  rw [(lifecycle_frame s c hc j).2.1, (lifecycle_frame s c hc j).2.2]
  exact hr j hj

theorem Recorded_exec (cs : List Call) :
    ∀ (s : State) (ps : List Nat), Recorded s ps →
      Recorded (exec s cs) (ps ++ postPrices cs) := by
  induction cs with
  | nil =>
    intro s ps h
    simpa [exec, postPrices] using h
  | cons c cs ih =>
    intro s ps h
    cases c with
    | postJob a p =>
      have h1 := ih (PostJob a s p).1 (ps ++ [p]) (Recorded_PostJob s ps a p h)
      simpa [exec, step, postPrices] using h1
    | claimJob a j =>
      exact ih _ ps (Recorded_lifecycle s ps (Call.claimJob a j) (by simp) h)
    | submitWork a j =>
      exact ih _ ps (Recorded_lifecycle s ps (Call.submitWork a j) (by simp) h)
    | approveWork a j =>
      exact ih _ ps (Recorded_lifecycle s ps (Call.approveWork a j) (by simp) h)
    | rejectWork a j =>
      exact ih _ ps (Recorded_lifecycle s ps (Call.rejectWork a j) (by simp) h)

theorem Recorded_empty (s0 : State) (h0 : s0.jobCounter = 0) : Recorded s0 [] := by
  refine ⟨by simp [h0], ?_⟩
  intro j hj
  omega

theorem Recorded_reachable (s0 : State) (h0 : s0.jobCounter = 0) (cs : List Call) :
    Recorded (exec s0 cs) (postPrices cs) := by
  have h := Recorded_exec cs s0 [] (Recorded_empty s0 h0)
  simpa using h

/-- C7: from a state with `jobCounter = 0`, after any sequence of calls that
contains `n` posts, `jobCounter` is `min n 1000`; the next `PostJob` returns
`n` when `n < 1000` (the i-th post returns i - 1), and when `n ≥ 1000` the
counter is 1000 and `PostJob` returns 0 and changes nothing.  In any state
with `jobCounter ≥ 1000`, `PostJob` returns 0 and changes nothing. -/
theorem PostJob_capacity (s0 : State) (h0 : s0.jobCounter = 0) (cs : List Call)
    (caller : QPI.id) (price : Nat) :
    (exec s0 cs).jobCounter = min (postPrices cs).length 1000 ∧
    ((postPrices cs).length < 1000 →
      (PostJob caller (exec s0 cs) price).2 = (postPrices cs).length ∧
      (PostJob caller (exec s0 cs) price).1.jobCounter = (postPrices cs).length + 1) ∧
    ((postPrices cs).length ≥ 1000 →
      (exec s0 cs).jobCounter = 1000 ∧
      PostJob caller (exec s0 cs) price = (exec s0 cs, 0)) ∧
    (∀ s : State, s.jobCounter ≥ 1000 → PostJob caller s price = (s, 0)) := by
  have hc := (Recorded_reachable s0 h0 cs).1
  refine ⟨hc, ?_, ?_, fun s hs => PostJob_full caller s price hs⟩
  · intro hn
    have hlt : (exec s0 cs).jobCounter < 1000 := by
      rw [hc, Nat.min_def]; split_ifs <;> omega
    have heq : (exec s0 cs).jobCounter = (postPrices cs).length := by
      rw [hc, Nat.min_def]; split_ifs <;> omega
    rw [PostJob_ok caller (exec s0 cs) price hlt]
    exact ⟨heq, by simp [heq]⟩
  · intro hn
    have heq : (exec s0 cs).jobCounter = 1000 := by
      rw [hc, Nat.min_def]; split_ifs <;> omega
    exact ⟨heq, PostJob_full caller (exec s0 cs) price (by omega)⟩

/-- After two posts interleaved with a claim, the counter is 2 and the third
post returns 2. -/
theorem PostJob_capacity_witness :
    (exec emptyState [Call.postJob 7 100, Call.claimJob 8 0, Call.postJob 9 5]).jobCounter = 2 ∧
    (PostJob 7 (exec emptyState
      [Call.postJob 7 100, Call.claimJob 8 0, Call.postJob 9 5]) 30).2 = 2 :=
  have h := PostJob_capacity emptyState rfl
    [Call.postJob 7 100, Call.claimJob 8 0, Call.postJob 9 5] 7 30
  ⟨h.1, (h.2.1 (by decide)).1⟩

/-- C9: for `jobId < jobCounter`, `GetJob` returns the stored record's
`jobId`, price and status byte, with Open = 0, Claimed = 1, Submitted = 2,
Approved = 3, Rejected = 4; and after any sequence of calls from a state with
`jobCounter = 0`, the returned `jobId` is the requested one and the returned
price is the price of the post that created the job (post number `jobId`). -/
theorem GetJob_in_range :
    (∀ (s : State) (jobId : Nat) (out : GetJob_output), jobId < s.jobCounter →
      GetJob s jobId out =
        { jobId := (s.jobs jobId).jobId, price := (s.jobs jobId).priceInQubic,
          status := (s.jobs jobId).status }) ∧
    (OPEN = 0 ∧ CLAIMED = 1 ∧ SUBMITTED = 2 ∧ APPROVED = 3 ∧ REJECTED = 4) ∧
    (∀ (s0 : State) (cs : List Call) (jobId : Nat) (out : GetJob_output),
      s0.jobCounter = 0 → jobId < (exec s0 cs).jobCounter →
        (GetJob (exec s0 cs) jobId out).jobId = jobId ∧
        (postPrices cs)[jobId]? = some (GetJob (exec s0 cs) jobId out).price) := by
  have hg : ∀ (s : State) (jobId : Nat) (out : GetJob_output), jobId < s.jobCounter →
      GetJob s jobId out =
        { jobId := (s.jobs jobId).jobId, price := (s.jobs jobId).priceInQubic,
          status := (s.jobs jobId).status } := by
    intro s jobId out h
    have hn : ¬ s.jobCounter ≤ jobId := by omega
    simp [GetJob, hn]
  refine ⟨hg, ⟨rfl, rfl, rfl, rfl, rfl⟩, ?_⟩
  intro s0 cs jobId out h0 hj
  rw [hg _ _ _ hj]
  exact (Recorded_reachable s0 h0 cs).2 jobId hj

/-- `GetJob` on the second of two posted jobs, after the first was claimed,
returns its index, its price and Open. -/
theorem GetJob_in_range_witness :
    GetJob (exec emptyState [Call.postJob 7 100, Call.claimJob 8 0, Call.postJob 9 5]) 1
      GetJob_output.zero = { jobId := 1, price := 5, status := 0 } ∧
    GetJob (exec emptyState [Call.postJob 7 100, Call.claimJob 8 0, Call.postJob 9 5]) 0
      GetJob_output.zero = { jobId := 0, price := 100, status := 1 } :=
  ⟨(GetJob_in_range.1 _ 1 GetJob_output.zero (by decide)).trans (by decide),
   (GetJob_in_range.1 _ 0 GetJob_output.zero (by decide)).trans (by decide)⟩

/-! ## Terminal states -/

/-- One call leaves a record in a terminal status as it is, keeps its index
below the counter, and answers 1 if it is a lifecycle call addressed to it. -/
theorem terminal_step (s : State) (c : Call) (j : Nat) (hj : j < s.jobCounter)
    (ht : (s.jobs j).status = APPROVED ∨ (s.jobs j).status = REJECTED) :
    (step s c).1.jobs j = s.jobs j ∧ j < (step s c).1.jobCounter ∧
    (c.addresses j = true → (step s c).2 = 1) := by
  have hO : (s.jobs j).status ≠ OPEN := by
    rcases ht with h | h <;> rw [h] <;> decide
  have hC : (s.jobs j).status ≠ CLAIMED := by
    rcases ht with h | h <;> rw [h] <;> decide
  have hS : (s.jobs j).status ≠ SUBMITTED := by
    rcases ht with h | h <;> rw [h] <;> decide
  cases c with
  | postJob a p =>
    simp only [step, Call.addresses]
    by_cases hlt : s.jobCounter < 1000
    · rw [PostJob_ok a s p hlt]
      have hne : j ≠ s.jobCounter := by omega
      refine ⟨by simp [Function.update, hne], ?_, by simp⟩
      show j < s.jobCounter + 1
      omega
    · rw [PostJob_full a s p (by omega)]
      exact ⟨rfl, hj, by simp⟩
  | claimJob a k =>
    simp only [step, Call.addresses]
    by_cases h : k < s.jobCounter ∧ (s.jobs k).status = OPEN
    · have hne : j ≠ k := fun e => hO (e ▸ h.2)
      rw [ClaimJob_ok a s k h.1 h.2]
      refine ⟨by simp [Function.update, hne], hj, ?_⟩
      intro hk
      exact absurd (beq_iff_eq.mp hk).symm hne
    · rw [ClaimJob_fail a s k h]
      exact ⟨rfl, hj, fun _ => rfl⟩
  | submitWork a k =>
    simp only [step, Call.addresses]
    by_cases h : k < s.jobCounter ∧ (s.jobs k).status = CLAIMED ∧
        a = (s.jobs k).workerAddress
    · have hne : j ≠ k := fun e => hC (e ▸ h.2.1)
      rw [SubmitWork_ok a s k h.1 h.2.1 h.2.2]
      refine ⟨by simp [Function.update, hne], hj, ?_⟩
      intro hk
      exact absurd (beq_iff_eq.mp hk).symm hne
    · rw [SubmitWork_fail a s k h]
      exact ⟨rfl, hj, fun _ => rfl⟩
  | approveWork a k =>
    simp only [step, Call.addresses]
    by_cases h : k < s.jobCounter ∧ (s.jobs k).status = SUBMITTED ∧
        a = (s.jobs k).clientAddress
    · have hne : j ≠ k := fun e => hS (e ▸ h.2.1)
      rw [ApproveWork_ok a s k h.1 h.2.1 h.2.2]
      refine ⟨by simp [Function.update, hne], hj, ?_⟩
      intro hk
      exact absurd (beq_iff_eq.mp hk).symm hne
    · rw [ApproveWork_fail a s k h]
      exact ⟨rfl, hj, fun _ => rfl⟩
  | rejectWork a k =>
    simp only [step, Call.addresses]
    by_cases h : k < s.jobCounter ∧ (s.jobs k).status = SUBMITTED ∧
        a = (s.jobs k).clientAddress
    · have hne : j ≠ k := fun e => hS (e ▸ h.2.1)
      rw [RejectWork_ok a s k h.1 h.2.1 h.2.2]
      refine ⟨by simp [Function.update, hne], hj, ?_⟩
      intro hk
      exact absurd (beq_iff_eq.mp hk).symm hne
    · rw [RejectWork_fail a s k h]
      exact ⟨rfl, hj, fun _ => rfl⟩

/-- C10: if record `j < jobCounter` is Approved or Rejected, then after any
sequence of calls the record at `j` is the same record, and every `ClaimJob`,
`SubmitWork`, `ApproveWork` or `RejectWork` call of the sequence addressed to
`j` returned 1. -/
theorem terminal_absorbing (s : State) (j : Nat) (hj : j < s.jobCounter)
    (ht : (s.jobs j).status = APPROVED ∨ (s.jobs j).status = REJECTED)
    (cs : List Call) :
    (exec s cs).jobs j = s.jobs j ∧
    ∀ e ∈ trace s cs, e.1.addresses j = true → e.2 = 1 := by
  induction cs generalizing s with
  | nil => exact ⟨rfl, by simp [trace]⟩
  | cons c cs ih =>
    obtain ⟨h1, h2, h3⟩ := terminal_step s c j hj ht
    obtain ⟨i1, i2⟩ := ih (step s c).1 h2 (by rw [h1]; exact ht)
    refine ⟨by simp only [exec]; rw [i1, h1], ?_⟩
    intro e he
    simp only [trace, List.mem_cons] at he
    rcases he with he | he
    · subst he
      exact h3
    · exact i2 e he

/-- An Approved job stays as it is under a claim, a post and a rejection. -/
theorem terminal_absorbing_witness :
    (exec (oneJob APPROVED 8 1)
      [Call.claimJob 9 0, Call.postJob 3 50, Call.rejectWork 7 0]).jobs 0 =
      (oneJob APPROVED 8 1).jobs 0 ∧
    (Call.rejectWork 7 0, 1) ∈ trace (oneJob APPROVED 8 1)
      [Call.claimJob 9 0, Call.postJob 3 50, Call.rejectWork 7 0] :=
  ⟨(terminal_absorbing (oneJob APPROVED 8 1) 0 (by decide) (Or.inl rfl)
      [Call.claimJob 9 0, Call.postJob 3 50, Call.rejectWork 7 0]).1, by decide⟩

/-! ## One call, seen from one record -/

theorem exec_append (cs ds : List Call) :
    ∀ s : State, exec s (cs ++ ds) = exec (exec s cs) ds := by
  induction cs with
  | nil => intro s; rfl
  | cons c cs ih => intro s; exact ih (step s c).1

/-- What one call does to a record below the counter: nothing, or one of the
four transitions, each rewriting the status (and, for a claim, the worker). -/
theorem step_record (s : State) (c : Call) (j : Nat) (hj : j < s.jobCounter) :
    (step s c).1.jobs j = s.jobs j ∨
    ((s.jobs j).status = OPEN ∧ ∃ a,
      (step s c).1.jobs j = { s.jobs j with status := CLAIMED, workerAddress := a }) ∨
    ((s.jobs j).status = CLAIMED ∧
      (step s c).1.jobs j = { s.jobs j with status := SUBMITTED }) ∨
    ((s.jobs j).status = SUBMITTED ∧
      (step s c).1.jobs j = { s.jobs j with status := APPROVED }) ∨
    ((s.jobs j).status = SUBMITTED ∧
      (step s c).1.jobs j = { s.jobs j with status := REJECTED }) := by
  cases c with
  | postJob a p =>
    left
    simp only [step]
    by_cases hlt : s.jobCounter < 1000
    · rw [PostJob_ok a s p hlt]
      have hne : j ≠ s.jobCounter := by omega
      simp [Function.update, hne]
    · rw [PostJob_full a s p (by omega)]
  | claimJob a k =>
    simp only [step]
    by_cases h : k < s.jobCounter ∧ (s.jobs k).status = OPEN
    · rw [ClaimJob_ok a s k h.1 h.2]
      by_cases hjk : j = k
      · subst hjk
        right; left
        exact ⟨h.2, a, by simp⟩
      · left
        simp [Function.update, hjk]
    · rw [ClaimJob_fail a s k h]
      exact Or.inl rfl
  | submitWork a k =>
    simp only [step]
    by_cases h : k < s.jobCounter ∧ (s.jobs k).status = CLAIMED ∧
        a = (s.jobs k).workerAddress
    · rw [SubmitWork_ok a s k h.1 h.2.1 h.2.2]
      by_cases hjk : j = k
      · subst hjk
        right; right; left
        exact ⟨h.2.1, by simp⟩
      · left
        simp [Function.update, hjk]
    · rw [SubmitWork_fail a s k h]
      exact Or.inl rfl
  | approveWork a k =>
    simp only [step]
    by_cases h : k < s.jobCounter ∧ (s.jobs k).status = SUBMITTED ∧
        a = (s.jobs k).clientAddress
    · rw [ApproveWork_ok a s k h.1 h.2.1 h.2.2]
      by_cases hjk : j = k
      · subst hjk
        right; right; right; left
        exact ⟨h.2.1, by simp⟩
      · left
        simp [Function.update, hjk]
    · rw [ApproveWork_fail a s k h]
      exact Or.inl rfl
  | rejectWork a k =>
    simp only [step]
    by_cases h : k < s.jobCounter ∧ (s.jobs k).status = SUBMITTED ∧
        a = (s.jobs k).clientAddress
    · rw [RejectWork_ok a s k h.1 h.2.1 h.2.2]
      by_cases hjk : j = k
      · subst hjk
        right; right; right; right
        exact ⟨h.2.1, by simp⟩
      · left
        simp [Function.update, hjk]
    · rw [RejectWork_fail a s k h]
      exact Or.inl rfl

/-- What one call does to the counter: nothing, or, for a `PostJob` below
capacity, one more job, whose record is the fresh Open record. -/
theorem step_counter (s : State) (c : Call) :
    (step s c).1.jobCounter = s.jobCounter ∨
    (∃ a p, c = Call.postJob a p ∧ s.jobCounter < 1000 ∧
      (step s c).1.jobCounter = s.jobCounter + 1 ∧
      (step s c).1.jobs s.jobCounter =
        { jobId := s.jobCounter, priceInQubic := p, clientAddress := a,
          workerAddress := NULL_ID, status := OPEN, createdAt := 0 }) := by
  cases c with
  | postJob a p =>
    by_cases hlt : s.jobCounter < 1000
    · right
      refine ⟨a, p, rfl, hlt, ?_⟩
      simp only [step]
      rw [PostJob_ok a s p hlt]
      simp
    · left
      simp only [step]
      rw [PostJob_full a s p (by omega)]
  | claimJob a k => exact Or.inl (lifecycle_frame s _ (by simp) 0).1
  | submitWork a k => exact Or.inl (lifecycle_frame s _ (by simp) 0).1
  | approveWork a k => exact Or.inl (lifecycle_frame s _ (by simp) 0).1
  | rejectWork a k => exact Or.inl (lifecycle_frame s _ (by simp) 0).1

theorem step_counter_le (s : State) (c : Call) :
    s.jobCounter ≤ (step s c).1.jobCounter := by
  rcases step_counter s c with h | ⟨_, _, _, _, h, _⟩ <;> omega

/-- One call keeps a record below the counter there, keeps its `jobId`,
price, client and `createdAt`, and keeps the worker and the fact of not being
Open when the record is not Open. -/
theorem step_keeps (s : State) (c : Call) (j : Nat) (hj : j < s.jobCounter) :
    j < (step s c).1.jobCounter ∧
    ((step s c).1.jobs j).jobId = (s.jobs j).jobId ∧
    ((step s c).1.jobs j).priceInQubic = (s.jobs j).priceInQubic ∧
    ((step s c).1.jobs j).clientAddress = (s.jobs j).clientAddress ∧
    ((step s c).1.jobs j).createdAt = (s.jobs j).createdAt ∧
    ((s.jobs j).status ≠ OPEN →
      ((step s c).1.jobs j).workerAddress = (s.jobs j).workerAddress ∧
      ((step s c).1.jobs j).status ≠ OPEN) := by
  have hle := step_counter_le s c
  refine ⟨by omega, ?_⟩
  rcases step_record s c j hj with h | ⟨h, a, e⟩ | ⟨h, e⟩ | ⟨h, e⟩ | ⟨h, e⟩
  · rw [h]
    exact ⟨rfl, rfl, rfl, rfl, fun hn => ⟨rfl, hn⟩⟩
  · rw [e]
    exact ⟨rfl, rfl, rfl, rfl, fun hn => absurd h hn⟩
  · rw [e]
    exact ⟨rfl, rfl, rfl, rfl, fun _ => ⟨rfl, (by decide : SUBMITTED ≠ OPEN)⟩⟩
  · rw [e]
    exact ⟨rfl, rfl, rfl, rfl, fun _ => ⟨rfl, (by decide : APPROVED ≠ OPEN)⟩⟩
  · rw [e]
    exact ⟨rfl, rfl, rfl, rfl, fun _ => ⟨rfl, (by decide : REJECTED ≠ OPEN)⟩⟩

/-! ## Invariants of the registry -/

/-- C12: after any sequence of calls from a state with `jobCounter = 0`, every
index `j < jobCounter` holds a record whose `jobId` is `j`; so two indices
below the counter with the same `jobId` are the same index. -/
theorem jobId_is_index (s0 : State) (h0 : s0.jobCounter = 0) (cs : List Call) :
    (∀ j, j < (exec s0 cs).jobCounter → ((exec s0 cs).jobs j).jobId = j) ∧
    (∀ i j, i < (exec s0 cs).jobCounter → j < (exec s0 cs).jobCounter →
      ((exec s0 cs).jobs i).jobId = ((exec s0 cs).jobs j).jobId → i = j) := by
  have h := (Recorded_reachable s0 h0 cs).2
  refine ⟨fun j hj => (h j hj).1, ?_⟩
  intro i j hi hj e
  rw [(h i hi).1, (h j hj).1] at e
  exact e

/-- After three posts and a claim, records 0, 1 and 2 carry their index. -/
theorem jobId_is_index_witness :
    ((exec emptyState [Call.postJob 7 100, Call.postJob 9 5, Call.claimJob 8 1,
      Call.postJob 7 1]).jobs 2).jobId = 2 ∧
    ((exec emptyState [Call.postJob 7 100, Call.postJob 9 5, Call.claimJob 8 1,
      Call.postJob 7 1]).jobs 1).jobId = 1 :=
  have h := (jobId_is_index emptyState rfl [Call.postJob 7 100, Call.postJob 9 5,
    Call.claimJob 8 1, Call.postJob 7 1]).1
  ⟨h 2 (by decide), h 1 (by decide)⟩

/-- C13: no call decreases `jobCounter`, over one call or a sequence; every
call other than `PostJob` leaves it as it is; and after any sequence of calls
from a state with `jobCounter = 0` it is at most 1000 and every cell of
`jobs` that a procedure or `GetJob` would index lies below 1000. -/
theorem jobCounter_bounds :
    (∀ (s : State) (c : Call), s.jobCounter ≤ (step s c).1.jobCounter) ∧
    (∀ (s : State) (cs : List Call), s.jobCounter ≤ (exec s cs).jobCounter) ∧
    (∀ (s : State) (c : Call), (∀ a p, c ≠ Call.postJob a p) →
      (step s c).1.jobCounter = s.jobCounter) ∧
    (∀ (s0 : State) (cs : List Call), s0.jobCounter = 0 →
      (exec s0 cs).jobCounter ≤ 1000 ∧
      (∀ c i, indexed (exec s0 cs) c = some i → i < 1000) ∧
      (∀ jobId i, GetJob_indexed (exec s0 cs) jobId = some i → i < 1000)) := by
  refine ⟨step_counter_le, ?_, fun s c hc => (lifecycle_frame s c hc 0).1, ?_⟩
  · intro s cs
    induction cs generalizing s with
    | nil => exact Nat.le_refl _
    | cons c cs ih => exact Nat.le_trans (step_counter_le s c) (ih (step s c).1)
  · intro s0 cs h0
    have hc : (exec s0 cs).jobCounter ≤ 1000 := by
      rw [(Recorded_reachable s0 h0 cs).1]
      exact Nat.min_le_right _ _
    refine ⟨hc, ?_, ?_⟩
    · intro c i hi
      cases c with
      | postJob a p =>
        simp only [indexed] at hi
        split_ifs at hi with hg
        cases hi
        omega
      | claimJob a k =>
        simp only [indexed] at hi
        split_ifs at hi with hg
        cases hi
        omega
      | submitWork a k =>
        simp only [indexed] at hi
        split_ifs at hi with hg
        cases hi
        omega
      | approveWork a k =>
        simp only [indexed] at hi
        split_ifs at hi with hg
        cases hi
        omega
      | rejectWork a k =>
        simp only [indexed] at hi
        split_ifs at hi with hg
        cases hi
        omega
    · intro jobId i hi
      simp only [GetJob_indexed] at hi
      split_ifs at hi with hg
      cases hi
      omega

/-- After one post, a claim of job 0 indexes cell 0 and the next post cell 1,
both inside the array. -/
theorem jobCounter_bounds_witness :
    indexed (exec emptyState [Call.postJob 7 100]) (Call.claimJob 8 0) = some 0 ∧
    indexed (exec emptyState [Call.postJob 7 100]) (Call.postJob 8 3) = some 1 ∧
    (exec emptyState [Call.postJob 7 100]).jobCounter ≤ 1000 ∧
    (1 : Nat) < 1000 :=
  have h := jobCounter_bounds.2.2.2 emptyState [Call.postJob 7 100] rfl
  ⟨by decide, by decide, h.1, h.2.1 (Call.postJob 8 3) 1 (by decide)⟩

/-- C14: one call keeps, in every record below the counter, the `jobId`, the
price and the client, and keeps the worker of a record that is not Open; the
same holds across any sequence of calls. -/
theorem fields_immutable (s : State) (j : Nat) (hj : j < s.jobCounter) :
    (∀ c : Call,
      ((step s c).1.jobs j).jobId = (s.jobs j).jobId ∧
      ((step s c).1.jobs j).priceInQubic = (s.jobs j).priceInQubic ∧
      ((step s c).1.jobs j).clientAddress = (s.jobs j).clientAddress ∧
      ((s.jobs j).status ≠ OPEN →
        ((step s c).1.jobs j).workerAddress = (s.jobs j).workerAddress)) ∧
    (∀ cs : List Call,
      ((exec s cs).jobs j).jobId = (s.jobs j).jobId ∧
      ((exec s cs).jobs j).priceInQubic = (s.jobs j).priceInQubic ∧
      ((exec s cs).jobs j).clientAddress = (s.jobs j).clientAddress ∧
      ((s.jobs j).status ≠ OPEN →
        ((exec s cs).jobs j).workerAddress = (s.jobs j).workerAddress)) := by
  refine ⟨?_, ?_⟩
  · intro c
    obtain ⟨_, h1, h2, h3, _, h5⟩ := step_keeps s c j hj
    exact ⟨h1, h2, h3, fun hn => (h5 hn).1⟩
  · intro cs
    induction cs generalizing s with
    | nil => exact ⟨rfl, rfl, rfl, fun _ => rfl⟩
    | cons c cs ih =>
      obtain ⟨h0, h1, h2, h3, _, h5⟩ := step_keeps s c j hj
      obtain ⟨i1, i2, i3, i4⟩ := ih (step s c).1 h0
      simp only [exec]
      refine ⟨i1.trans h1, i2.trans h2, i3.trans h3, ?_⟩
      intro hn
      exact (i4 (h5 hn).2).trans (h5 hn).1

/-- A Claimed job keeps its client, price and worker when someone else tries
to claim it and its worker submits. -/
theorem fields_immutable_witness :
    ((exec (oneJob CLAIMED 8 0) [Call.claimJob 9 0, Call.submitWork 8 0]).jobs 0).clientAddress
      = 7 ∧
    ((exec (oneJob CLAIMED 8 0) [Call.claimJob 9 0, Call.submitWork 8 0]).jobs 0).workerAddress
      = 8 :=
  have h := (fields_immutable (oneJob CLAIMED 8 0) 0 (by decide)).2
    [Call.claimJob 9 0, Call.submitWork 8 0]
  ⟨h.2.2.1, h.2.2.2 (by decide)⟩

/-! ## The completed-jobs aggregate -/

theorem approvedCount_le (s : State) : approvedCount s ≤ s.jobCounter := by
  unfold approvedCount
  calc ((Finset.range s.jobCounter).filter (fun j => (s.jobs j).status = APPROVED)).card
      ≤ (Finset.range s.jobCounter).card := Finset.card_filter_le _ _
    _ = s.jobCounter := Finset.card_range _

/-- Rewriting record `k` without changing whether it is Approved keeps the
count. -/
theorem approvedCount_update (s : State) (k : Nat) (r : Job) (t : Nat)
    (h : r.status = APPROVED ↔ (s.jobs k).status = APPROVED) :
    approvedCount { jobCounter := s.jobCounter, jobs := Function.update s.jobs k r,
                    totalJobsCompleted := t } = approvedCount s := by
  unfold approvedCount
  congr 1
  ext j
  simp only [Finset.mem_filter, Finset.mem_range]
  by_cases hjk : j = k
  · subst hjk
    simp [h]
  · simp [Function.update, hjk]

/-- Rewriting a record below the counter from not Approved to Approved adds
one to the count. -/
theorem approvedCount_approve (s : State) (k : Nat) (r : Job) (t : Nat)
    (hk : k < s.jobCounter) (hr : r.status = APPROVED)
    (hs : (s.jobs k).status ≠ APPROVED) :
    approvedCount { jobCounter := s.jobCounter, jobs := Function.update s.jobs k r,
                    totalJobsCompleted := t } = approvedCount s + 1 := by
  unfold approvedCount
  have hnot : k ∉ (Finset.range s.jobCounter).filter
      (fun j => (s.jobs j).status = APPROVED) := by
    simp [hs]
  rw [← Finset.card_insert_of_not_mem hnot]
  congr 1
  ext j
  simp only [Finset.mem_filter, Finset.mem_range, Finset.mem_insert]
  by_cases hjk : j = k
  · subst hjk
    simp [hr, hk]
  · simp [Function.update, hjk]

/-- Appending a record that is not Approved keeps the count. -/
theorem approvedCount_post (s : State) (r : Job) (t : Nat)
    (hr : r.status ≠ APPROVED) :
    approvedCount { jobCounter := s.jobCounter + 1,
                    jobs := Function.update s.jobs s.jobCounter r,
                    totalJobsCompleted := t } = approvedCount s := by
  unfold approvedCount
  congr 1
  ext j
  simp only [Finset.mem_filter, Finset.mem_range]
  by_cases hjk : j = s.jobCounter
  · subst hjk
    simp [hr]
  · simp only [Function.update, hjk, dite_false]
    constructor
    · rintro ⟨h1, h2⟩
      exact ⟨by omega, h2⟩
    · rintro ⟨h1, h2⟩
      exact ⟨by omega, h2⟩

theorem approvedIds_cons (e : Call × Nat) (tr : List (Call × Nat)) :
    approvedIds (e :: tr) = approvedIds [e] ++ approvedIds tr := by
  unfold approvedIds
  rw [← List.filterMap_append]
  rfl

theorem mem_approvedIds (k : Nat) (tr : List (Call × Nat)) :
    k ∈ approvedIds tr ↔ ∃ a, (Call.approveWork a k, 0) ∈ tr := by
  unfold approvedIds
  rw [List.mem_filterMap]
  constructor
  · rintro ⟨⟨c, out⟩, hmem, he⟩
    cases c with
    | approveWork a j =>
      simp only at he
      split_ifs at he with h0
      cases he
      subst h0
      exact ⟨a, hmem⟩
    | postJob a p => simp at he
    | claimJob a j => simp at he
    | submitWork a j => simp at he
    | rejectWork a j => simp at he
  · rintro ⟨a, hmem⟩
    exact ⟨(Call.approveWork a k, 0), hmem, by simp⟩

/-- One call from a state whose aggregate is below the 64-bit top adds to the
Approved records and to the aggregate exactly the successful approval it is,
if it is one. -/
theorem approved_step (s : State) (c : Call)
    (ht : s.totalJobsCompleted + 1 < UINT64_MOD) :
    approvedCount (step s c).1 =
      approvedCount s + (approvedIds [(c, (step s c).2)]).length ∧
    (step s c).1.totalJobsCompleted =
      s.totalJobsCompleted + (approvedIds [(c, (step s c).2)]).length := by
  cases c with
  | postJob a p =>
    simp only [step]
    by_cases hlt : s.jobCounter < 1000
    · rw [PostJob_ok a s p hlt]
      exact ⟨approvedCount_post s _ _ (by decide : OPEN ≠ APPROVED), rfl⟩
    · rw [PostJob_full a s p (by omega)]
      exact ⟨rfl, rfl⟩
  | claimJob a k =>
    simp only [step]
    by_cases h : k < s.jobCounter ∧ (s.jobs k).status = OPEN
    · rw [ClaimJob_ok a s k h.1 h.2]
      refine ⟨approvedCount_update s k _ _ ?_, rfl⟩
      rw [h.2]
      exact (by decide : (CLAIMED = APPROVED ↔ OPEN = APPROVED))
    · rw [ClaimJob_fail a s k h]
      exact ⟨rfl, rfl⟩
  | submitWork a k =>
    simp only [step]
    by_cases h : k < s.jobCounter ∧ (s.jobs k).status = CLAIMED ∧
        a = (s.jobs k).workerAddress
    · rw [SubmitWork_ok a s k h.1 h.2.1 h.2.2]
      refine ⟨approvedCount_update s k _ _ ?_, rfl⟩
      rw [h.2.1]
      exact (by decide : (SUBMITTED = APPROVED ↔ CLAIMED = APPROVED))
    · rw [SubmitWork_fail a s k h]
      exact ⟨rfl, rfl⟩
  | approveWork a k =>
    simp only [step]
    by_cases h : k < s.jobCounter ∧ (s.jobs k).status = SUBMITTED ∧
        a = (s.jobs k).clientAddress
    · rw [ApproveWork_ok a s k h.1 h.2.1 h.2.2]
      have hs : (s.jobs k).status ≠ APPROVED := by
        rw [h.2.1]
        decide
      have hl : (approvedIds [(Call.approveWork a k, 0)]).length = 1 := by
        simp [approvedIds]
      refine ⟨?_, ?_⟩
      · rw [hl]
        exact approvedCount_approve s k _ _ h.1 rfl hs
      · rw [hl]
        exact Nat.mod_eq_of_lt ht
    · rw [ApproveWork_fail a s k h]
      have hl : (approvedIds [(Call.approveWork a k, 1)]).length = 0 := by
        simp [approvedIds]
      exact ⟨by rw [hl]; rfl, by rw [hl]; rfl⟩
  | rejectWork a k =>
    simp only [step]
    by_cases h : k < s.jobCounter ∧ (s.jobs k).status = SUBMITTED ∧
        a = (s.jobs k).clientAddress
    · rw [RejectWork_ok a s k h.1 h.2.1 h.2.2]
      refine ⟨approvedCount_update s k _ _ ?_, rfl⟩
      rw [h.2.1]
      exact (by decide : (REJECTED = APPROVED ↔ SUBMITTED = APPROVED))
    · rw [RejectWork_fail a s k h]
      exact ⟨rfl, rfl⟩

theorem Counted_step (s : State) (c : Call) (h : Counted s) :
    Counted (step s c).1 ∧
    (step s c).1.totalJobsCompleted =
      s.totalJobsCompleted + (approvedIds [(c, (step s c).2)]).length := by
  obtain ⟨hc, ht⟩ := h
  have hle := approvedCount_le s
  have hlt : s.totalJobsCompleted + 1 < UINT64_MOD := by
    unfold UINT64_MOD
    omega
  obtain ⟨h1, h2⟩ := approved_step s c hlt
  refine ⟨⟨?_, ?_⟩, h2⟩
  · rcases step_counter s c with e | ⟨_, _, _, hlt', e, _⟩ <;> omega
  · rw [h1, h2, ht]

theorem Counted_exec (cs : List Call) :
    ∀ s : State, Counted s →
      Counted (exec s cs) ∧
      (exec s cs).totalJobsCompleted =
        s.totalJobsCompleted + (approvedIds (trace s cs)).length := by
  induction cs with
  | nil =>
    intro s h
    exact ⟨h, by simp [exec, trace, approvedIds]⟩
  | cons c cs ih =>
    intro s h
    obtain ⟨h1, h2⟩ := Counted_step s c h
    obtain ⟨i1, i2⟩ := ih (step s c).1 h1
    refine ⟨i1, ?_⟩
    simp only [exec, trace]
    rw [approvedIds_cons, List.length_append, i2, h2]
    omega

theorem Counted_empty (s0 : State) (h0 : s0.jobCounter = 0)
    (ht : s0.totalJobsCompleted = 0) : Counted s0 := by
  refine ⟨by omega, ?_⟩
  have hle := approvedCount_le s0
  omega

/-- Once record `j` is Approved or Rejected, every lifecycle call of a run
addressed to `j` returns 1. -/
theorem terminal_outputs (j : Nat) (cs : List Call) :
    ∀ s : State, j < s.jobCounter →
      ((s.jobs j).status = APPROVED ∨ (s.jobs j).status = REJECTED) →
      ∀ e ∈ trace s cs, e.1.addresses j = true → e.2 = 1 := by
  induction cs with
  | nil =>
    intro s _ _ e he
    simp [trace] at he
  | cons c cs ih =>
    intro s hj ht e he
    obtain ⟨h1, h2, h3⟩ := terminal_step s c j hj ht
    simp only [trace, List.mem_cons] at he
    rcases he with he | he
    · subst he
      exact h3
    · exact ih (step s c).1 h2 (by rw [h1]; exact ht) e he

/-- Successful approvals of a trace address distinct jobs, from any state. -/
theorem approvedIds_nodup (cs : List Call) :
    ∀ s : State, (approvedIds (trace s cs)).Nodup := by
  induction cs with
  | nil =>
    intro s
    simp [trace, approvedIds]
  | cons c cs ih =>
    intro s
    simp only [trace]
    rw [approvedIds_cons]
    cases c with
    | postJob a p => simpa [approvedIds] using ih _
    | claimJob a k => simpa [approvedIds] using ih _
    | submitWork a k => simpa [approvedIds] using ih _
    | rejectWork a k => simpa [approvedIds] using ih _
    | approveWork a k =>
      simp only [step]
      by_cases h : k < s.jobCounter ∧ (s.jobs k).status = SUBMITTED ∧
          a = (s.jobs k).clientAddress
      · have hok := ApproveWork_ok a s k h.1 h.2.1 h.2.2
        have hl : approvedIds [(Call.approveWork a k, (ApproveWork a s k).2)] = [k] := by
          rw [hok]
          simp [approvedIds]
        rw [hl]
        have hterm := terminal_outputs k cs (ApproveWork a s k).1
          (by rw [hok]; exact h.1) (by rw [hok]; left; simp)
        have hnot : k ∉ approvedIds (trace (ApproveWork a s k).1 cs) := by
          intro hmem
          obtain ⟨a', hmem'⟩ := (mem_approvedIds k _).mp hmem
          have h01 : (0 : Nat) = 1 := hterm _ hmem' (by simp [Call.addresses])
          exact absurd h01 (by decide)
        exact List.nodup_cons.mpr ⟨hnot, ih _⟩
      · have hl : approvedIds [(Call.approveWork a k, (ApproveWork a s k).2)] = [] := by
          rw [ApproveWork_fail a s k h]
          simp [approvedIds]
        rw [hl]
        exact ih _

/-- C11: after any sequence of calls from a state with `jobCounter = 0` and
`totalJobsCompleted = 0`, `totalJobsCompleted` is the number of indices below
`jobCounter` whose record is Approved, it is the number of `ApproveWork`
calls of the sequence that returned 0, and those calls address pairwise
distinct jobs. -/
theorem completed_counts_approved (s0 : State) (h0 : s0.jobCounter = 0)
    (ht : s0.totalJobsCompleted = 0) (cs : List Call) :
    (exec s0 cs).totalJobsCompleted = approvedCount (exec s0 cs) ∧
    (exec s0 cs).totalJobsCompleted = (approvedIds (trace s0 cs)).length ∧
    (approvedIds (trace s0 cs)).Nodup := by
  obtain ⟨h1, h2⟩ := Counted_exec cs s0 (Counted_empty s0 h0 ht)
  refine ⟨h1.2, ?_, approvedIds_nodup cs s0⟩
  rw [h2, ht]
  omega

/-- One job taken through its whole lifecycle, with a second approval
attempted: one Approved record, one successful approval, aggregate 1. -/
theorem completed_counts_approved_witness :
    (exec emptyState [Call.postJob 7 100, Call.claimJob 8 0, Call.submitWork 8 0,
      Call.approveWork 7 0, Call.approveWork 7 0]).totalJobsCompleted = 1 ∧
    approvedCount (exec emptyState [Call.postJob 7 100, Call.claimJob 8 0,
      Call.submitWork 8 0, Call.approveWork 7 0, Call.approveWork 7 0]) = 1 ∧
    approvedIds (trace emptyState [Call.postJob 7 100, Call.claimJob 8 0,
      Call.submitWork 8 0, Call.approveWork 7 0, Call.approveWork 7 0]) = [0] :=
  have h := completed_counts_approved emptyState rfl rfl
    [Call.postJob 7 100, Call.claimJob 8 0, Call.submitWork 8 0,
      Call.approveWork 7 0, Call.approveWork 7 0]
  have ht : (exec emptyState [Call.postJob 7 100, Call.claimJob 8 0, Call.submitWork 8 0,
      Call.approveWork 7 0, Call.approveWork 7 0]).totalJobsCompleted = 1 := by decide
  ⟨ht, h.1.symm.trans ht, by decide⟩

/-! ## Scenarios -/

/-- C15: from a state with `jobCounter = 0` and `totalJobsCompleted = 0`, for
identities `C`, `A` and `B ≠ A`, the six calls of the scenario return
0, 0, 1, 0, 0, 1; after the post `GetJobsCount` is 1; after the claim job 0
is Claimed with worker `A`; the submit by `B` leaves the state as it is;
after the submit by `A` job 0 is Submitted; after the approval
`totalJobsCompleted` is 1 and job 0 is Approved; the final reject leaves the
state as it is. -/
theorem scenario_runs (s0 : State) (h0 : s0.jobCounter = 0)
    (ht : s0.totalJobsCompleted = 0) (C A B : QPI.id) (hBA : B ≠ A) :
    (trace s0 (scenario C A B)).map Prod.snd = [0, 0, 1, 0, 0, 1] ∧
    GetJobsCount (exec s0 ((scenario C A B).take 1)) = 1 ∧
    ((exec s0 ((scenario C A B).take 2)).jobs 0).status = CLAIMED ∧
    ((exec s0 ((scenario C A B).take 2)).jobs 0).workerAddress = A ∧
    exec s0 ((scenario C A B).take 3) = exec s0 ((scenario C A B).take 2) ∧
    ((exec s0 ((scenario C A B).take 4)).jobs 0).status = SUBMITTED ∧
    (exec s0 ((scenario C A B).take 5)).totalJobsCompleted = 1 ∧
    ((exec s0 ((scenario C A B).take 5)).jobs 0).status = APPROVED ∧
    exec s0 ((scenario C A B).take 6) = exec s0 ((scenario C A B).take 5) := by
  obtain ⟨jc, jobs, t⟩ := s0
  simp only at h0 ht
  subst h0 ht
  have hAB : ¬ A = B := fun e => hBA e.symm
  simp [scenario, trace, exec, step, PostJob, ClaimJob, SubmitWork, ApproveWork,
    RejectWork, GetJobsCount, Function.update, OPEN, CLAIMED, SUBMITTED, APPROVED,
    REJECTED, UINT64_MOD, hBA, hAB]

/-- The scenario with client 7 and workers 8 and 9, from the empty state. -/
theorem scenario_runs_witness :
    (trace emptyState (scenario 7 8 9)).map Prod.snd = [0, 0, 1, 0, 0, 1] ∧
    (exec emptyState ((scenario 7 8 9).take 5)).totalJobsCompleted = 1 :=
  have h := scenario_runs emptyState rfl rfl 7 8 9 (by decide)
  ⟨h.1, h.2.2.2.2.2.2.1⟩

/-- C16: after a single `PostJob` of price 0 from a state with
`jobCounter = 0`, job 0 exists, is Open and has price 0, and `GetJob 0`
returns what `GetJob j` returns for every `j ≥ jobCounter`: (0, 0, 0), on the
zero-filled output record. -/
theorem sentinel_ambiguity (s0 : State) (h0 : s0.jobCounter = 0) (C : QPI.id)
    (j : Nat) (hj : j ≥ (PostJob C s0 0).1.jobCounter) :
    0 < (PostJob C s0 0).1.jobCounter ∧
    ((PostJob C s0 0).1.jobs 0).status = OPEN ∧
    ((PostJob C s0 0).1.jobs 0).priceInQubic = 0 ∧
    GetJob (PostJob C s0 0).1 0 GetJob_output.zero =
      GetJob (PostJob C s0 0).1 j GetJob_output.zero ∧
    GetJob (PostJob C s0 0).1 j GetJob_output.zero =
      { jobId := 0, price := 0, status := 0 } := by
  have hlt : s0.jobCounter < 1000 := by omega
  rw [PostJob_ok C s0 0 hlt] at hj ⊢
  simp only at hj
  have h1 : 1 ≤ j := by omega
  have hne : j ≠ 0 := by omega
  simp [GetJob, GetJob_output.zero, h0, Function.update, OPEN, h1, hne]

/-- After one post of price 0 by identity 7, `GetJob 0` and `GetJob 5` agree. -/
theorem sentinel_ambiguity_witness :
    GetJob (PostJob 7 emptyState 0).1 0 GetJob_output.zero =
      GetJob (PostJob 7 emptyState 0).1 5 GetJob_output.zero :=
  (sentinel_ambiguity emptyState rfl 7 5 (by decide)).2.2.2.1

/-- C17: `ClaimJob` on an Open job below the counter returns 0 and makes the
caller the worker, whoever the caller is; and below capacity one identity can
post, claim, submit and approve a job alone: the four calls return the new
job id, 0, 0, 0, the job ends Approved with that identity as client and
worker, and `totalJobsCompleted` is incremented (modulo `2 ^ 64`). -/
theorem self_claiming :
    (∀ (s : State) (caller : QPI.id) (jobId : Nat),
      jobId < s.jobCounter → (s.jobs jobId).status = OPEN →
        (ClaimJob caller s jobId).2 = 0 ∧
        ((ClaimJob caller s jobId).1.jobs jobId).workerAddress = caller) ∧
    (∀ (s : State) (X : QPI.id) (price : Nat), s.jobCounter < 1000 →
      (trace s (soloLifecycle s X price)).map Prod.snd = [s.jobCounter, 0, 0, 0] ∧
      ((exec s (soloLifecycle s X price)).jobs s.jobCounter).status = APPROVED ∧
      ((exec s (soloLifecycle s X price)).jobs s.jobCounter).clientAddress = X ∧
      ((exec s (soloLifecycle s X price)).jobs s.jobCounter).workerAddress = X ∧
      (exec s (soloLifecycle s X price)).totalJobsCompleted =
        (s.totalJobsCompleted + 1) % UINT64_MOD ∧
      (s.totalJobsCompleted + 1 < UINT64_MOD →
        (exec s (soloLifecycle s X price)).totalJobsCompleted =
          s.totalJobsCompleted + 1)) := by
  refine ⟨?_, ?_⟩
  · intro s caller jobId hj hs
    rw [ClaimJob_ok caller s jobId hj hs]
    simp
  · intro s X price hlt
    have hn : ¬ 1000 ≤ s.jobCounter := by omega
    have hm : (s.jobCounter + 1) % UINT64_MOD = s.jobCounter + 1 :=
      Nat.mod_eq_of_lt (by unfold UINT64_MOD; omega)
    refine ⟨?_, ?_, ?_, ?_, ?_, ?_⟩
    all_goals
      simp [soloLifecycle, trace, exec, step, PostJob, ClaimJob, SubmitWork, ApproveWork,
        Function.update, OPEN, CLAIMED, SUBMITTED, APPROVED, hn, hm]
    intro h
    exact Nat.mod_eq_of_lt h

/-- Identity 7 claims its own job, and takes a job through the whole
lifecycle alone. -/
theorem self_claiming_witness :
    (ClaimJob 7 (oneJob OPEN NULL_ID 0) 0).2 = 0 ∧
    ((exec emptyState (soloLifecycle emptyState 7 100)).jobs 0).status = APPROVED ∧
    (exec emptyState (soloLifecycle emptyState 7 100)).totalJobsCompleted = 1 :=
  ⟨(self_claiming.1 (oneJob OPEN NULL_ID 0) 7 0 (by decide) (by decide)).1,
   (self_claiming.2 emptyState 7 100 (by decide)).2.1,
   (self_claiming.2 emptyState 7 100 (by decide)).2.2.2.2.2 (by decide)⟩

/-! ## Well-formed records -/

theorem Sound_step (s : State) (c : Call) (h : Sound s) : Sound (step s c).1 := by
  intro j hj'
  by_cases hj : j < s.jobCounter
  · obtain ⟨h1, h2, h3⟩ := h j hj
    rcases step_record s c j hj with e | ⟨_, a, e⟩ | ⟨_, e⟩ | ⟨_, e⟩ | ⟨_, e⟩
    · rw [e]
      exact ⟨h1, h2, h3⟩
    · rw [e]
      exact ⟨h1, Or.inr (Or.inl rfl), fun h0 => absurd h0 (by decide : CLAIMED ≠ OPEN)⟩
    · rw [e]
      exact ⟨h1, Or.inr (Or.inr (Or.inl rfl)),
        fun h0 => absurd h0 (by decide : SUBMITTED ≠ OPEN)⟩
    · rw [e]
      exact ⟨h1, Or.inr (Or.inr (Or.inr (Or.inl rfl))),
        fun h0 => absurd h0 (by decide : APPROVED ≠ OPEN)⟩
    · rw [e]
      exact ⟨h1, Or.inr (Or.inr (Or.inr (Or.inr rfl))),
        fun h0 => absurd h0 (by decide : REJECTED ≠ OPEN)⟩
  · rcases step_counter s c with e | ⟨a, p, _, _, e, hr⟩
    · omega
    · have hjc : j = s.jobCounter := by omega
      subst hjc
      rw [hr]
      exact ⟨rfl, Or.inl rfl, fun _ => rfl⟩

theorem Sound_exec (cs : List Call) : ∀ s : State, Sound s → Sound (exec s cs) := by
  induction cs with
  | nil => intro s h; exact h
  | cons c cs ih => intro s h; exact ih _ (Sound_step s c h)

/-- C19: after any sequence of calls from a state with `jobCounter = 0`, every
record below `jobCounter` has `createdAt = 0` and one of the five statuses
0..4, and every such record that is Open has `workerAddress = NULL_ID`. -/
theorem records_well_formed (s0 : State) (h0 : s0.jobCounter = 0) (cs : List Call)
    (j : Nat) (hj : j < (exec s0 cs).jobCounter) :
    (((exec s0 cs).jobs j).status = OPEN →
      ((exec s0 cs).jobs j).workerAddress = NULL_ID) ∧
    ((exec s0 cs).jobs j).createdAt = 0 ∧
    (((exec s0 cs).jobs j).status = 0 ∨ ((exec s0 cs).jobs j).status = 1 ∨
      ((exec s0 cs).jobs j).status = 2 ∨ ((exec s0 cs).jobs j).status = 3 ∨
      ((exec s0 cs).jobs j).status = 4) := by
  have hs : Sound s0 := by
    intro i hi
    omega
  obtain ⟨h1, h2, h3⟩ := Sound_exec cs s0 hs j hj
  exact ⟨h3, h1, h2⟩

/-- Of two posted jobs, the claimed one has a worker and the Open one has
none; both have `createdAt = 0`. -/
theorem records_well_formed_witness :
    ((exec emptyState [Call.postJob 7 100, Call.postJob 9 5, Call.claimJob 8 0]).jobs 1).status
      = OPEN ∧
    ((exec emptyState [Call.postJob 7 100, Call.postJob 9 5,
      Call.claimJob 8 0]).jobs 1).workerAddress = NULL_ID ∧
    ((exec emptyState [Call.postJob 7 100, Call.postJob 9 5,
      Call.claimJob 8 0]).jobs 0).createdAt = 0 :=
  ⟨by decide,
   (records_well_formed emptyState rfl
      [Call.postJob 7 100, Call.postJob 9 5, Call.claimJob 8 0] 1 (by decide)).1 (by decide),
   (records_well_formed emptyState rfl
      [Call.postJob 7 100, Call.postJob 9 5, Call.claimJob 8 0] 0 (by decide)).2.1⟩

/-! ## The 64-bit increments -/

/-- Below the 64-bit top of both counters, a call does the same with bounded
and with unbounded increments. -/
theorem step_unbounded_eq (s : State) (c : Call)
    (hc : s.jobCounter + 1 < UINT64_MOD) (ht : s.totalJobsCompleted + 1 < UINT64_MOD) :
    step_unbounded s c = step s c := by
  cases c with
  | postJob a p =>
    simp only [step_unbounded, step, PostJob_unbounded, PostJob, Nat.mod_eq_of_lt hc]
  | claimJob a k => rfl
  | submitWork a k => rfl
  | approveWork a k =>
    simp only [step_unbounded, step, ApproveWork_unbounded, ApproveWork, Nat.mod_eq_of_lt ht]
  | rejectWork a k => rfl

theorem Counted_below_top (s : State) (h : Counted s) :
    s.totalJobsCompleted ≤ s.jobCounter ∧ s.jobCounter ≤ 1000 ∧
    s.jobCounter + 1 < UINT64_MOD ∧ s.totalJobsCompleted + 1 < UINT64_MOD := by
  obtain ⟨hc, ht⟩ := h
  have hle := approvedCount_le s
  unfold UINT64_MOD
  omega

theorem unbounded_exec (cs : List Call) :
    ∀ s : State, Counted s →
      exec_unbounded s cs = exec s cs ∧ trace_unbounded s cs = trace s cs := by
  induction cs with
  | nil => intro s _; exact ⟨rfl, rfl⟩
  | cons c cs ih =>
    intro s h
    obtain ⟨_, _, hc, ht⟩ := Counted_below_top s h
    have he := step_unbounded_eq s c hc ht
    obtain ⟨i1, i2⟩ := ih (step s c).1 (Counted_step s c h).1
    simp only [exec_unbounded, exec, trace_unbounded, trace, he]
    exact ⟨i1, by rw [i2]⟩

/-- C20: after any sequence of calls from a state with `jobCounter = 0` and
`totalJobsCompleted = 0`, `totalJobsCompleted ≤ jobCounter ≤ 1000`, so the
next `jobCounter++` and `totalJobsCompleted++` do not wrap modulo `2 ^ 64`;
and running the sequence with unbounded increments gives the same state and
the same outputs as the code's modulo-`2 ^ 64` increments. -/
theorem increments_never_wrap (s0 : State) (h0 : s0.jobCounter = 0)
    (ht : s0.totalJobsCompleted = 0) (cs : List Call) :
    (exec s0 cs).totalJobsCompleted ≤ (exec s0 cs).jobCounter ∧
    (exec s0 cs).jobCounter ≤ 1000 ∧
    ((exec s0 cs).jobCounter + 1) % UINT64_MOD = (exec s0 cs).jobCounter + 1 ∧
    ((exec s0 cs).totalJobsCompleted + 1) % UINT64_MOD =
      (exec s0 cs).totalJobsCompleted + 1 ∧
    exec_unbounded s0 cs = exec s0 cs ∧
    trace_unbounded s0 cs = trace s0 cs := by
  have hC := Counted_empty s0 h0 ht
  obtain ⟨h1, h2, h3, h4⟩ := Counted_below_top _ (Counted_exec cs s0 hC).1
  obtain ⟨h5, h6⟩ := unbounded_exec cs s0 hC
  exact ⟨h1, h2, Nat.mod_eq_of_lt h3, Nat.mod_eq_of_lt h4, h5, h6⟩

/-- After a whole lifecycle of one job, one job is completed out of one, and
the unbounded run returns the same outputs. -/
theorem increments_never_wrap_witness :
    (exec emptyState (soloLifecycle emptyState 7 100)).totalJobsCompleted ≤
      (exec emptyState (soloLifecycle emptyState 7 100)).jobCounter ∧
    (exec emptyState (soloLifecycle emptyState 7 100)).jobCounter ≤ 1000 ∧
    trace_unbounded emptyState (soloLifecycle emptyState 7 100) =
      trace emptyState (soloLifecycle emptyState 7 100) :=
  have h := increments_never_wrap emptyState rfl rfl (soloLifecycle emptyState 7 100)
  ⟨h.1, h.2.1, h.2.2.2.2.2⟩

/-! ## The lifecycle as a step relation -/

theorem StatusAt_zero (s : State) (c : Call) (cs : List Call) (j : Nat) (st : JobStatus)
    (hj : j < s.jobCounter) (hs : (s.jobs j).status = st) :
    StatusAt s (c :: cs) j 0 st := by
  refine ⟨by simp, ?_, ?_⟩
  · simpa [exec] using hj
  · simpa [exec] using hs

theorem StatusAt_succ (s : State) (c : Call) (cs : List Call) (j n : Nat) (st : JobStatus)
    (h : StatusAt (step s c).1 cs j n st) : StatusAt s (c :: cs) j (n + 1) st := by
  obtain ⟨h1, h2, h3⟩ := h
  refine ⟨by simp only [List.length_cons]; omega, ?_, ?_⟩
  · simpa [exec] using h2
  · simpa [exec] using h3

/-- A job that is Approved or Rejected at the end of a run was Submitted at
some earlier point if it starts Submitted, Claimed and then Submitted if it
starts Claimed, and Open, then Claimed, then Submitted if it starts Open or
is not yet posted. -/
theorem went_through (j : Nat) (cs : List Call) :
    ∀ s : State, j < (exec s cs).jobCounter →
      (((exec s cs).jobs j).status = APPROVED ∨ ((exec s cs).jobs j).status = REJECTED) →
      (j < s.jobCounter → (s.jobs j).status = SUBMITTED →
        ∃ n3, StatusAt s cs j n3 SUBMITTED) ∧
      (j < s.jobCounter → (s.jobs j).status = CLAIMED →
        ∃ n2 n3, n2 < n3 ∧ StatusAt s cs j n2 CLAIMED ∧ StatusAt s cs j n3 SUBMITTED) ∧
      ((j < s.jobCounter → (s.jobs j).status = OPEN) →
        ∃ n1 n2 n3, n1 < n2 ∧ n2 < n3 ∧ StatusAt s cs j n1 OPEN ∧
          StatusAt s cs j n2 CLAIMED ∧ StatusAt s cs j n3 SUBMITTED) := by
  have hOC : ¬ OPEN = CLAIMED := by decide
  have hOS : ¬ OPEN = SUBMITTED := by decide
  have hCS : ¬ CLAIMED = SUBMITTED := by decide
  induction cs with
  | nil =>
    intro s hend hterm
    simp only [exec] at hend hterm
    have hS : ¬ (s.jobs j).status = SUBMITTED := by
      rcases hterm with h | h <;> rw [h] <;> decide
    have hC : ¬ (s.jobs j).status = CLAIMED := by
      rcases hterm with h | h <;> rw [h] <;> decide
    have hO : ¬ (s.jobs j).status = OPEN := by
      rcases hterm with h | h <;> rw [h] <;> decide
    exact ⟨fun _ h => absurd h hS, fun _ h => absurd h hC, fun h => absurd (h hend) hO⟩
  | cons c cs ih =>
    intro s hend hterm
    simp only [exec] at hend hterm
    obtain ⟨I3, I2, I1⟩ := ih (step s c).1 hend hterm
    refine ⟨?_, ?_, ?_⟩
    · intro hj hst
      exact ⟨0, StatusAt_zero s c cs j _ hj hst⟩
    · intro hj hst
      have hj' := (step_keeps s c j hj).1
      have z := StatusAt_zero s c cs j _ hj hst
      rcases step_record s c j hj with e | ⟨h, _, _⟩ | ⟨_, e⟩ | ⟨h, _⟩ | ⟨h, _⟩
      · obtain ⟨n2, n3, _, _, h3⟩ := I2 hj' (by rw [e]; exact hst)
        exact ⟨0, n3 + 1, by omega, z, StatusAt_succ s c cs j n3 _ h3⟩
      · exact absurd (h.symm.trans hst) hOC
      · obtain ⟨n3, h3⟩ := I3 hj' (by rw [e])
        exact ⟨0, n3 + 1, by omega, z, StatusAt_succ s c cs j n3 _ h3⟩
      · exact absurd (hst.symm.trans h) hCS
      · exact absurd (hst.symm.trans h) hCS
    · intro hO
      by_cases hj : j < s.jobCounter
      · have hst := hO hj
        have hj' := (step_keeps s c j hj).1
        have z := StatusAt_zero s c cs j _ hj hst
        rcases step_record s c j hj with e | ⟨_, a, e⟩ | ⟨h, _⟩ | ⟨h, _⟩ | ⟨h, _⟩
        · obtain ⟨n1, n2, n3, _, h23, _, h2, h3⟩ := I1 (fun _ => by rw [e]; exact hst)
          exact ⟨0, n2 + 1, n3 + 1, by omega, by omega, z,
            StatusAt_succ s c cs j n2 _ h2, StatusAt_succ s c cs j n3 _ h3⟩
        · obtain ⟨n2, n3, h23, h2, h3⟩ := I2 hj' (by rw [e])
          exact ⟨0, n2 + 1, n3 + 1, by omega, by omega, z,
            StatusAt_succ s c cs j n2 _ h2, StatusAt_succ s c cs j n3 _ h3⟩
        · exact absurd (hst.symm.trans h) hOC
        · exact absurd (hst.symm.trans h) hOS
        · exact absurd (hst.symm.trans h) hOS
      · have hO' : j < (step s c).1.jobCounter → ((step s c).1.jobs j).status = OPEN := by
          intro hj'
          rcases step_counter s c with e | ⟨_, _, _, _, e, hr⟩
          · omega
          · have hjc : j = s.jobCounter := by omega
            subst hjc
            rw [hr]
        obtain ⟨n1, n2, n3, h12, h23, h1, h2, h3⟩ := I1 hO'
        exact ⟨n1 + 1, n2 + 1, n3 + 1, by omega, by omega,
          StatusAt_succ s c cs j n1 _ h1, StatusAt_succ s c cs j n2 _ h2,
          StatusAt_succ s c cs j n3 _ h3⟩

/-- C18: one call changes at most one record below the new counter; the
status of a record below the old counter stays or moves by one of
Open→Claimed, Claimed→Submitted, Submitted→Approved, Submitted→Rejected;
`PostJob` leaves the records below the old counter alone and either changes
nothing or adds one Open record; and a job that is Approved or Rejected after
a sequence of calls from a state with `jobCounter = 0` was Open, later
Claimed and later Submitted at three earlier points of the sequence. -/
theorem lifecycle_steps :
    (∀ (s : State) (c : Call), ∃ k, ∀ j, j < (step s c).1.jobCounter → j ≠ k →
      (step s c).1.jobs j = s.jobs j) ∧
    (∀ (s : State) (c : Call) (j : Nat), j < s.jobCounter →
      ((step s c).1.jobs j).status = (s.jobs j).status ∨
      Transition (s.jobs j).status ((step s c).1.jobs j).status) ∧
    (∀ (s : State) (a : QPI.id) (p : Nat),
      (∀ j, j < s.jobCounter → (PostJob a s p).1.jobs j = s.jobs j) ∧
      ((PostJob a s p).1 = s ∨
        ((PostJob a s p).1.jobCounter = s.jobCounter + 1 ∧
          ((PostJob a s p).1.jobs s.jobCounter).status = OPEN))) ∧
    (∀ (s0 : State) (cs : List Call) (j : Nat), s0.jobCounter = 0 →
      j < (exec s0 cs).jobCounter →
      (((exec s0 cs).jobs j).status = APPROVED ∨
        ((exec s0 cs).jobs j).status = REJECTED) →
      ∃ n1 n2 n3, n1 < n2 ∧ n2 < n3 ∧ StatusAt s0 cs j n1 OPEN ∧
        StatusAt s0 cs j n2 CLAIMED ∧ StatusAt s0 cs j n3 SUBMITTED) := by
  refine ⟨?_, ?_, ?_, ?_⟩
  · intro s c
    cases c with
    | postJob a p =>
      refine ⟨s.jobCounter, fun j _ hne => ?_⟩
      simp only [step]
      by_cases hlt : s.jobCounter < 1000
      · rw [PostJob_ok a s p hlt]
        simp [Function.update, hne]
      · rw [PostJob_full a s p (by omega)]
    | claimJob a k =>
      refine ⟨k, fun j _ hne => ?_⟩
      simp only [step]
      by_cases h : k < s.jobCounter ∧ (s.jobs k).status = OPEN
      · rw [ClaimJob_ok a s k h.1 h.2]
        simp [Function.update, hne]
      · rw [ClaimJob_fail a s k h]
    | submitWork a k =>
      refine ⟨k, fun j _ hne => ?_⟩
      simp only [step]
      by_cases h : k < s.jobCounter ∧ (s.jobs k).status = CLAIMED ∧
          a = (s.jobs k).workerAddress
      · rw [SubmitWork_ok a s k h.1 h.2.1 h.2.2]
        simp [Function.update, hne]
      · rw [SubmitWork_fail a s k h]
    | approveWork a k =>
      refine ⟨k, fun j _ hne => ?_⟩
      simp only [step]
      by_cases h : k < s.jobCounter ∧ (s.jobs k).status = SUBMITTED ∧
          a = (s.jobs k).clientAddress
      · rw [ApproveWork_ok a s k h.1 h.2.1 h.2.2]
        simp [Function.update, hne]
      · rw [ApproveWork_fail a s k h]
    | rejectWork a k =>
      refine ⟨k, fun j _ hne => ?_⟩
      simp only [step]
      by_cases h : k < s.jobCounter ∧ (s.jobs k).status = SUBMITTED ∧
          a = (s.jobs k).clientAddress
      · rw [RejectWork_ok a s k h.1 h.2.1 h.2.2]
        simp [Function.update, hne]
      · rw [RejectWork_fail a s k h]
  · intro s c j hj
    rcases step_record s c j hj with e | ⟨h, a, e⟩ | ⟨h, e⟩ | ⟨h, e⟩ | ⟨h, e⟩
    · exact Or.inl (by rw [e])
    · exact Or.inr (Or.inl ⟨h, by rw [e]⟩)
    · exact Or.inr (Or.inr (Or.inl ⟨h, by rw [e]⟩))
    · exact Or.inr (Or.inr (Or.inr (Or.inl ⟨h, by rw [e]⟩)))
    · exact Or.inr (Or.inr (Or.inr (Or.inr ⟨h, by rw [e]⟩)))
  · intro s a p
    by_cases hlt : s.jobCounter < 1000
    · rw [PostJob_ok a s p hlt]
      refine ⟨fun j hj => ?_, Or.inr ⟨rfl, by simp⟩⟩
      have hne : j ≠ s.jobCounter := by omega
      simp [Function.update, hne]
    · rw [PostJob_full a s p (by omega)]
      exact ⟨fun _ _ => rfl, Or.inl rfl⟩
  · intro s0 cs j h0 hj hterm
    exact (went_through j cs s0 hj hterm).2.2 (fun hlt => by omega)

/-- In the run post, claim, submit, approve, job 0 ends Approved and was Open
after 1 call, Claimed after 2 and Submitted after 3. -/
theorem lifecycle_steps_witness :
    ((exec emptyState (soloLifecycle emptyState 7 100)).jobs 0).status = APPROVED ∧
    StatusAt emptyState (soloLifecycle emptyState 7 100) 0 1 OPEN ∧
    StatusAt emptyState (soloLifecycle emptyState 7 100) 0 2 CLAIMED ∧
    StatusAt emptyState (soloLifecycle emptyState 7 100) 0 3 SUBMITTED ∧
    ∃ n1 n2 n3, n1 < n2 ∧ n2 < n3 ∧
      StatusAt emptyState (soloLifecycle emptyState 7 100) 0 n1 OPEN ∧
      StatusAt emptyState (soloLifecycle emptyState 7 100) 0 n2 CLAIMED ∧
      StatusAt emptyState (soloLifecycle emptyState 7 100) 0 n3 SUBMITTED :=
  ⟨by decide, by decide, by decide, by decide,
   lifecycle_steps.2.2.2 emptyState (soloLifecycle emptyState 7 100) 0 rfl
     (by decide) (Or.inl (by decide))⟩

/-! ## ApproveWork -/

/-- C3: `ApproveWork` returns 0 exactly when `jobId < jobCounter`, the stored
record is Submitted and the caller is its client, and 1 otherwise; on 0 the
record becomes Approved, every other field of it, every other record and
`jobCounter` are unchanged, and `totalJobsCompleted` increases by exactly 1.
The guard, the record and the frame are stated for every state; the increment
for every state whose `totalJobsCompleted` is below the largest 64-bit value,
and so for every state that a sequence of calls from a state with
`jobCounter = 0` and `totalJobsCompleted = 0` produces. -/
theorem ApproveWork_spec (caller : QPI.id) (s : State) (jobId : Nat) :
    ((ApproveWork caller s jobId).2 = 0 ↔
        (jobId < s.jobCounter ∧ (s.jobs jobId).status = SUBMITTED ∧
          caller = (s.jobs jobId).clientAddress)) ∧
    (¬ (jobId < s.jobCounter ∧ (s.jobs jobId).status = SUBMITTED ∧
          caller = (s.jobs jobId).clientAddress) →
        (ApproveWork caller s jobId).2 = 1) ∧
    ((ApproveWork caller s jobId).2 = 0 →
        (ApproveWork caller s jobId).1.jobs jobId =
          { s.jobs jobId with status := APPROVED } ∧
        (∀ k, k ≠ jobId → (ApproveWork caller s jobId).1.jobs k = s.jobs k) ∧
        (ApproveWork caller s jobId).1.jobCounter = s.jobCounter) ∧
    ((ApproveWork caller s jobId).2 = 0 → s.totalJobsCompleted + 1 < UINT64_MOD →
        (ApproveWork caller s jobId).1.totalJobsCompleted = s.totalJobsCompleted + 1) ∧
    ((ApproveWork caller s jobId).2 = 0 →
        ∀ (s0 : State) (cs : List Call), s0.jobCounter = 0 →
          s0.totalJobsCompleted = 0 → s = exec s0 cs →
          (ApproveWork caller s jobId).1.totalJobsCompleted =
            s.totalJobsCompleted + 1) := by
  have hinc : (ApproveWork caller s jobId).2 = 0 → s.totalJobsCompleted + 1 < UINT64_MOD →
      (ApproveWork caller s jobId).1.totalJobsCompleted = s.totalJobsCompleted + 1 := by
    by_cases h : jobId < s.jobCounter ∧ (s.jobs jobId).status = SUBMITTED ∧
        caller = (s.jobs jobId).clientAddress
    · rw [ApproveWork_ok caller s jobId h.1 h.2.1 h.2.2]
      intro _ hlt
      exact Nat.mod_eq_of_lt hlt
    · rw [ApproveWork_fail caller s jobId h]
      intro h0
      exact absurd h0 one_ne_zero
  refine ⟨?_, ?_, ?_, hinc, ?_⟩
  · by_cases h : jobId < s.jobCounter ∧ (s.jobs jobId).status = SUBMITTED ∧
        caller = (s.jobs jobId).clientAddress
    · rw [ApproveWork_ok caller s jobId h.1 h.2.1 h.2.2]
      exact ⟨fun _ => h, fun _ => rfl⟩
    · rw [ApproveWork_fail caller s jobId h]
      exact ⟨fun h0 => absurd h0 one_ne_zero, fun hc => absurd hc h⟩
  · intro h
    rw [ApproveWork_fail caller s jobId h]
  · by_cases h : jobId < s.jobCounter ∧ (s.jobs jobId).status = SUBMITTED ∧
        caller = (s.jobs jobId).clientAddress
    · rw [ApproveWork_ok caller s jobId h.1 h.2.1 h.2.2]
      intro _
      refine ⟨by simp, ?_, rfl⟩
      intro k hk
      simp [Function.update, hk]
    · rw [ApproveWork_fail caller s jobId h]
      intro h0
      exact absurd h0 one_ne_zero
  · intro hout s0 cs h0 ht hs
    have hC : Counted s := by
      rw [hs]
      exact (Counted_exec cs s0 (Counted_empty s0 h0 ht)).1
    exact hinc hout (Counted_below_top s hC).2.2.2

/-- After a post, a claim and a submit from the empty state, the client's
`ApproveWork` returns 0, the job is Approved and `totalJobsCompleted` goes
from 0 to 1. -/
theorem ApproveWork_spec_witness :
    (ApproveWork 7 (exec emptyState
      [Call.postJob 7 100, Call.claimJob 8 0, Call.submitWork 8 0]) 0).2 = 0 ∧
    ((ApproveWork 7 (exec emptyState
      [Call.postJob 7 100, Call.claimJob 8 0, Call.submitWork 8 0]) 0).1.jobs 0).status
      = APPROVED ∧
    (ApproveWork 7 (exec emptyState
      [Call.postJob 7 100, Call.claimJob 8 0, Call.submitWork 8 0]) 0).1.totalJobsCompleted
      = (exec emptyState
          [Call.postJob 7 100, Call.claimJob 8 0, Call.submitWork 8 0]).totalJobsCompleted
        + 1 :=
  have h := ApproveWork_spec 7 (exec emptyState
    [Call.postJob 7 100, Call.claimJob 8 0, Call.submitWork 8 0]) 0
  have h0 : (ApproveWork 7 (exec emptyState
      [Call.postJob 7 100, Call.claimJob 8 0, Call.submitWork 8 0]) 0).2 = 0 :=
    h.1.2 ⟨by decide, by decide, by decide⟩
  ⟨h0, by rw [(h.2.2.1 h0).1], h.2.2.2.2 h0 emptyState _ rfl rfl rfl⟩

end Qlance
